import Mathlib

/-!
Verification of the tentswebgui geometry-extraction and encoding pipeline
(`src/tentswebgui/py/tentswebgui_template.py`).

The Python code is shallowly embedded over exact rationals: every spatial
coordinate and time value is a `ℚ`, machine floats being modelled by real
numbers where normalisation (division by a Euclidean norm) is involved.
Fallible Python operations (numpy reshape, index errors, unbound local
variables, mesh lookups) are modelled with `Except String`.
-/

/-- A 3d point: the 2d mesh coordinate (x, y) with the time value as the
third (z) slot, exactly as built by `GetElements2D`. -/
abbrev Point3 := ℚ × ℚ × ℚ

/-- Componentwise subtraction of 3d points. -/
def sub3 (a b : Point3) : Point3 :=
  (a.1 - b.1, a.2.1 - b.2.1, a.2.2 - b.2.2)

/-- Componentwise addition of 3d points. -/
def add3 (a b : Point3) : Point3 :=
  (a.1 + b.1, a.2.1 + b.2.1, a.2.2 + b.2.2)

/-- Scalar multiple of a 3d point. -/
def smul3 (c : ℚ) (a : Point3) : Point3 :=
  (c * a.1, c * a.2.1, c * a.2.2)

/-- The cross product `np.cross(a, b)` of two 3-vectors. -/
def cross3 (a b : Point3) : Point3 :=
  (a.2.1 * b.2.2 - a.2.2 * b.2.1,
   a.2.2 * b.1 - a.1 * b.2.2,
   a.1 * b.2.1 - a.2.1 * b.1)

/-- The dot product of two 3-vectors. -/
def dot3 (a b : Point3) : ℚ :=
  a.1 * b.1 + a.2.1 * b.2.1 + a.2.2 * b.2.2

/-- The function np.sign on an exact number: 1, -1 or 0. -/
def qsign (x : ℚ) : ℚ :=
  if 0 < x then 1 else if x < 0 then -1 else 0

/-- Column `i` of `vecs = pts - np.roll(pts, 1, 1)` where `pts` has the
element's points as columns: `pts[:,i] - pts[:,(i-1) mod n]`.  An index
`i` past the number of columns is an `IndexError`, exactly as in numpy. -/
def colVec (el : List Point3) (i : ℕ) : Except String Point3 :=
  match el.get? i, el.get? ((i + el.length - 1) % el.length) with
  | some a, some b => .ok (sub3 a b)
  | _, _ => .error "IndexError: column"

/-- One iteration of the `for i in range(4)` loop of `GetFacesAndNormals`:
returns the face `[j,k,m]` (or `[j,m,k]` when the sign flips the winding)
together with the unnormalised normal `np.cross(vecs[:,k], vecs[:,m])` and
the sign `-np.sign(vecs[:,i].dot(normal))`.  The normalisation
`normal / np.linalg.norm(normal) * sign` is applied by `realNormal`. -/
def kernelStep (el : List Point3) (i : ℕ) :
    Except String (List ℕ × (Point3 × ℚ)) := do
  let j := (i + 1) % 4
  let k := (i + 2) % 4
  let m := (i + 3) % 4
  let vk ← colVec el k
  let vm ← colVec el m
  let vi ← colVec el i
  let normal := cross3 vk vm
  let s := - qsign (dot3 vi normal)
  .ok ((if 0 < s then [j, k, m] else [j, m, k]), (normal, s))

/-- Model of WebGLScene.GetFacesAndNormals: the four loop iterations in order.
Normals are kept in unnormalised `(vector, sign)` form; `realNormal` maps
such a pair to the real-valued normalised normal the Python code stores. -/
def getFacesAndNormals (el : List Point3) :
    Except String (List (List ℕ) × List (Point3 × ℚ)) := do
  let r0 ← kernelStep el 0
  let r1 ← kernelStep el 1
  let r2 ← kernelStep el 2
  let r3 ← kernelStep el 3
  .ok ([r0.1, r1.1, r2.1, r3.1], [r0.2, r1.2, r2.2, r3.2])

/-- The normalisation step of the kernel, normal divided by its norm
times the sign, over the reals. -/
noncomputable def realNormal (ns : Point3 × ℚ) : ℝ × ℝ × ℝ :=
  let n := ns.1
  let r : ℝ := Real.sqrt ((n.1 : ℝ) ^ 2 + (n.2.1 : ℝ) ^ 2 + (n.2.2 : ℝ) ^ 2)
  ((n.1 : ℝ) / r * (ns.2 : ℝ),
   (n.2.1 : ℝ) / r * (ns.2 : ℝ),
   (n.2.2 : ℝ) / r * (ns.2 : ℝ))

/-- Euclidean norm of a real 3-vector. -/
noncomputable def norm3R (v : ℝ × ℝ × ℝ) : ℝ :=
  Real.sqrt (v.1 ^ 2 + v.2.1 ^ 2 + v.2.2 ^ 2)

/-- Dot product of a real 3-vector with (the cast of) a rational one. -/
noncomputable def dotQR (a : ℝ × ℝ × ℝ) (b : Point3) : ℝ :=
  a.1 * (b.1 : ℝ) + a.2.1 * (b.2.1 : ℝ) + a.2.2 * (b.2.2 : ℝ)

/-- Centroid of the element points selected by a face's index triple. -/
def centroidOf (el : List Point3) (f : List ℕ) : Point3 :=
  smul3 (1 / (f.length : ℚ))
    (f.foldr (fun i acc => add3 (el.getD i (0, 0, 0)) acc) (0, 0, 0))

/-- Centroid of all four points of a tetrahedral element. -/
def centroid4 (el : List Point3) : Point3 :=
  smul3 (1 / (el.length : ℚ))
    (el.foldr (fun p acc => add3 p acc) (0, 0, 0))

/-- Non-degeneracy of the four points `[a,b,c,d]` as used by the kernel:
for each `i`, the triple product `vecs[:,i] ⬝ cross(vecs[:,k], vecs[:,m])`
whose sign orients face `i` is nonzero (`vec0 = a-d`, `vec1 = b-a`,
`vec2 = c-b`, `vec3 = d-c`). -/
def NonDeg (a b c d : Point3) : Prop :=
  dot3 (sub3 a d) (cross3 (sub3 c b) (sub3 d c)) ≠ 0 ∧
  dot3 (sub3 b a) (cross3 (sub3 d c) (sub3 a d)) ≠ 0 ∧
  dot3 (sub3 c b) (cross3 (sub3 a d) (sub3 b a)) ≠ 0 ∧
  dot3 (sub3 d c) (cross3 (sub3 b a) (sub3 c b)) ≠ 0

instance (a b c d : Point3) : Decidable (NonDeg a b c d) := by
  unfold NonDeg; infer_instance

/-! ## The tent flattener (`WebGLScene.GetElements2D`) -/

/-- The mesh-lookup collaborator: element id to ordered vertex ids, vertex
id to its 2d coordinate.  Unknown ids answer `none` (an exception in the
Python host). -/
structure Mesh where
  elementVertices : ℤ → Option (List ℤ)
  vertexPoint : ℤ → Option (ℚ × ℚ)

/-- The six accumulator lists built by `GetElements2D`. -/
structure Accum where
  gvertices : List Point3
  tentcenters : List ℕ
  nrs : List ℤ
  layers : List ℤ
  faces : List (List ℕ)
  normals : List (Point3 × ℚ)
deriving DecidableEq, Repr

/-- The empty accumulator state at the top of the record loop. -/
def accum0 : Accum := ⟨[], [], [], [], [], []⟩

/-- The vertex loop of `GetElements2D`: walk the element's vertex ids with
index `j`, for each append its coordinate with z set to `tbots[j]`, and for
the central vertex (`v.nr == vnr`) additionally append the same point with
z set to `ttop` and remember `center = j`.  The `center` argument is the
current value of the Python local variable `center`, `none` when it has
never been assigned. -/
def buildVerts (mesh : Mesh) (vnr : ℤ) (tbots : List ℚ) (ttop : ℚ) :
    List ℤ → ℕ → List Point3 → Option ℕ →
    Except String (List Point3 × Option ℕ)
  | [], _, acc, center => .ok (acc, center)
  | v :: vs, j, acc, center =>
    match mesh.vertexPoint v with
    | none => .error "KeyError: unknown vertex"
    | some (x, y) =>
      match tbots.get? j with
      | none => .error "IndexError: bottom time"
      | some tb =>
        if v = vnr then
          buildVerts mesh vnr tbots ttop vs (j + 1)
            (acc ++ [(x, y, tb), (x, y, ttop)]) (some j)
        else
          buildVerts mesh vnr tbots ttop vs (j + 1) (acc ++ [(x, y, tb)]) center

/-- One record of the loop body of `GetElements2D` up to and including
`tentcenters.append(center)`: append `nr` and `layer`, look the element up,
run the vertex loop, and append the (possibly stale) `center`; a
never-assigned `center` is Python's `NameError`.  Returns the updated
accumulator, the element's point list (which the code then hands to
`GetFacesAndNormals`), and the new value of the `center` variable. -/
def stepRecordPre (mesh : Mesh) (dR : ℤ × ℤ × ℤ × ℤ) (tR : ℚ × ℚ × ℚ × ℚ)
    (center : Option ℕ) (acc : Accum) :
    Except String (Accum × List Point3 × Option ℕ) :=
  let (nr, layer, vnr, elnr) := dR
  let (t0, t1, t2, ttop) := tR
  let acc1 := { acc with
    nrs := acc.nrs ++ [nr]
    layers := acc.layers ++ [layer] }
  match mesh.elementVertices elnr with
  | none => .error "KeyError: unknown element"
  | some evs =>
    match buildVerts mesh vnr [t0, t1, t2] ttop evs 0 [] center with
    | .error e => .error e
    | .ok (verts, center') =>
      match center' with
      | none => .error "NameError: center"
      | some c =>
        .ok ({ acc1 with tentcenters := acc1.tentcenters ++ [c] }, verts, center')

/-- One full record of the loop body of `GetElements2D`: the pre part
followed by `GetFacesAndNormals` on the element's point list and the
appends `faces += fcs; gvertices += vertices; normals += nrmls`. -/
def stepRecord (mesh : Mesh) (dR : ℤ × ℤ × ℤ × ℤ) (tR : ℚ × ℚ × ℚ × ℚ)
    (center : Option ℕ) (acc : Accum) : Except String (Accum × Option ℕ) :=
  match stepRecordPre mesh dR tR center acc with
  | .error e => .error e
  | .ok (acc2, verts, center') =>
    match getFacesAndNormals verts with
    | .error e => .error e
    | .ok (fcs, nrmls) =>
      .ok ({ acc2 with
             faces := acc2.faces ++ fcs
             gvertices := acc2.gvertices ++ verts
             normals := acc2.normals ++ nrmls }, center')

/-- The record loop: `for i, d in enumerate(data)` with `times[i]` looked
up by row index (missing rows are numpy's `IndexError`), threading the
`center` variable across iterations exactly as Python threads the local. -/
def processFrom (mesh : Mesh) (times : List (ℚ × ℚ × ℚ × ℚ)) :
    List (ℤ × ℤ × ℤ × ℤ) → ℕ → Option ℕ → Accum → Except String Accum
  | [], _, _, acc => .ok acc
  | dR :: rest, i, center, acc =>
    match times.get? i with
    | none => .error "IndexError: times row"
    | some tR =>
      match stepRecord mesh dR tR center acc with
      | .error e => .error e
      | .ok (acc', center') => processFrom mesh times rest (i + 1) center' acc'

/-- A model of np.array(flat).reshape(-1, 4): groups a flat list into rows of 4,
a `ValueError` when the length is not a multiple of 4. -/
def reshape4 {α : Type} : List α → Except String (List (α × α × α × α))
  | [] => .ok []
  | a :: b :: c :: d :: rest => (reshape4 rest).map (fun l => (a, b, c, d) :: l)
  | _ => .error "ValueError: cannot reshape"

/-- Model of WebGLScene.GetElements2D on the raw flat data and times streams
returned by `DrawPitchedTentsGL`: reshape both to rows of 4 and run the
record loop from the empty accumulator with `center` unbound. -/
def getElements2D (mesh : Mesh) (dataFlat : List ℤ) (timesFlat : List ℚ) :
    Except String Accum :=
  match reshape4 dataFlat with
  | .error e => .error e
  | .ok data =>
    match reshape4 timesFlat with
    | .error e => .error e
    | .ok times => processFrom mesh times data 0 none accum0

/-! ## `WebGLScene.GetData`: bounding sphere and scene assembly -/

/-- Componentwise maximum of two 3d points. -/
def cmax (a b : Point3) : Point3 :=
  (max a.1 b.1, max a.2.1 b.2.1, max a.2.2 b.2.2)

/-- Componentwise minimum of two 3d points. -/
def cmin (a b : Point3) : Point3 :=
  (min a.1 b.1, min a.2.1 b.2.1, min a.2.2 b.2.2)

/-- A model of vertices.max(axis=0): componentwise maximum over all rows; numpy
raises on an empty array. -/
def vmaxL : List Point3 → Option Point3
  | [] => none
  | v :: vs => some (vs.foldl cmax v)

/-- A model of vertices.min(axis=0): componentwise minimum over all rows. -/
def vminL : List Point3 → Option Point3
  | [] => none
  | v :: vs => some (vs.foldl cmin v)

/-- Componentwise midpoint `(a + b) / 2`. -/
def midp3 (a b : Point3) : Point3 :=
  ((a.1 + b.1) / 2, (a.2.1 + b.2.1) / 2, (a.2.2 + b.2.2) / 2)

/-- The computation behind the slab_center field: (vmin + vmax) / 2. -/
def slabCenter (vs : List Point3) : Option Point3 :=
  match vminL vs, vmaxL vs with
  | some lo, some hi => some (midp3 lo hi)
  | _, _ => none

/-- The computation behind the slab_radius field,
np.linalg.norm(vmax - vmin) / 2, over the reals. -/
noncomputable def slabRadius (vs : List Point3) : ℝ :=
  match vminL vs, vmaxL vs with
  | some lo, some hi =>
    (let w := sub3 hi lo
     Real.sqrt ((w.1 : ℝ) ^ 2 + (w.2.1 : ℝ) ^ 2 + (w.2.2 : ℝ) ^ 2)) / 2
  | _, _ => 0

/-- The scene record assembled by `GetData`, kept at the exact-number level:
`tent_el_vertices` and `face_normals` hold the lists that the code feeds to
`encodeData` (normals in unnormalised `(vector, sign)` form), the remaining
fields pass through as plain structured values. -/
structure SceneDataQ where
  ntents : ℤ
  nlayers : ℤ
  vertices : List Point3
  normalsRaw : List (Point3 × ℚ)
  faces : List (List ℕ)
  tent_centers : List ℕ
  tent_nrs : List ℤ
  tent_layers : List ℤ
  slab_center : Point3
deriving DecidableEq, Repr

/-- The post-loop part of `GetData`: bounding box of the emitted vertices
(a `ValueError` on an empty array) and field assembly. -/
def sceneFromAccum (ntents nlayers : ℤ) (acc : Accum) :
    Except String SceneDataQ :=
  match slabCenter acc.gvertices with
  | none => .error "ValueError: zero-size array reduction"
  | some c =>
    .ok { ntents := ntents
          nlayers := nlayers
          vertices := acc.gvertices
          normalsRaw := acc.normals
          faces := acc.faces
          tent_centers := acc.tentcenters
          tent_nrs := acc.nrs
          tent_layers := acc.layers
          slab_center := c }

/-- Model of WebGLScene.GetData down to (but not including) the float32/base64
encoding of the two arrays. -/
def getDataQ (mesh : Mesh) (dataFlat : List ℤ) (timesFlat : List ℚ)
    (ntents nlayers : ℤ) : Except String SceneDataQ :=
  match getElements2D mesh dataFlat timesFlat with
  | .error e => .error e
  | .ok acc => sceneFromAccum ntents nlayers acc

/-! ## The wall-clock instrumented pipeline

`GetElements2D` calls `time()` six times per record and accumulates the
differences in `setup_times`, `tent_times` and `face_times`, which are only
printed.  The clock is modelled as a pure sequence `clock : ℕ → ℚ` of the
values returned by the successive `time()` calls; the instrumented
functions thread the number of calls made so far. -/

structure Timings where
  setup : List ℚ
  tent : List ℚ
  face : List ℚ
deriving DecidableEq, Repr

/-- The empty timing accumulators. -/
def timings0 : Timings := ⟨[], [], []⟩

/-- The record step with the six per-record `time()` calls: call `cnt` is the
`start` before the appends, `cnt+1` closes `setup_times`, `cnt+2`/`cnt+3`
bracket the vertex loop, `cnt+4`/`cnt+5` bracket `GetFacesAndNormals`. -/
def stepRecordT (clock : ℕ → ℚ) (mesh : Mesh) (dR : ℤ × ℤ × ℤ × ℤ)
    (tR : ℚ × ℚ × ℚ × ℚ) (center : Option ℕ) (acc : Accum) (cnt : ℕ)
    (tm : Timings) : Except String (Accum × Option ℕ × ℕ × Timings) :=
  match stepRecordPre mesh dR tR center acc with
  | .error e => .error e
  | .ok (acc2, verts, center') =>
    match getFacesAndNormals verts with
    | .error e => .error e
    | .ok (fcs, nrmls) =>
      .ok ({ acc2 with
             faces := acc2.faces ++ fcs
             gvertices := acc2.gvertices ++ verts
             normals := acc2.normals ++ nrmls }, center', cnt + 6,
           { setup := tm.setup ++ [clock (cnt + 1) - clock cnt]
             tent := tm.tent ++ [clock (cnt + 3) - clock (cnt + 2)]
             face := tm.face ++ [clock (cnt + 5) - clock (cnt + 4)] })

/-- The record loop with timing instrumentation. -/
def processFromT (clock : ℕ → ℚ) (mesh : Mesh) (times : List (ℚ × ℚ × ℚ × ℚ)) :
    List (ℤ × ℤ × ℤ × ℤ) → ℕ → Option ℕ → Accum → ℕ → Timings →
    Except String (Accum × ℕ × Timings)
  | [], _, _, acc, cnt, tm => .ok (acc, cnt, tm)
  | dR :: rest, i, center, acc, cnt, tm =>
    match times.get? i with
    | none => .error "IndexError: times row"
    | some tR =>
      match stepRecordT clock mesh dR tR center acc cnt tm with
      | .error e => .error e
      | .ok (acc', center', cnt', tm') =>
        processFromT clock mesh times rest (i + 1) center' acc' cnt' tm'

/-- Model of GetElements2D with the wall clock made explicit; the `Timings`
component is what the final `print` consumes and is not returned to
`GetData`. -/
def getElements2DT (clock : ℕ → ℚ) (mesh : Mesh) (dataFlat : List ℤ)
    (timesFlat : List ℚ) : Except String (Accum × ℕ × Timings) :=
  match reshape4 dataFlat with
  | .error e => .error e
  | .ok data =>
    match reshape4 timesFlat with
    | .error e => .error e
    | .ok times => processFromT clock mesh times data 0 none accum0 0 timings0

/-- Model of GetData built on the instrumented extraction, dropping the timing
lists exactly as the code only prints them. -/
def getDataQT (clock : ℕ → ℚ) (mesh : Mesh) (dataFlat : List ℤ)
    (timesFlat : List ℚ) (ntents nlayers : ℤ) : Except String SceneDataQ :=
  match getElements2DT clock mesh dataFlat timesFlat with
  | .error e => .error e
  | .ok (acc, _, _) => sceneFromAccum ntents nlayers acc

/-! ## The payload encoder (`encodeData`)

`encodeData` converts the array to `np.float32` and base64-encodes its raw
buffer, i.e. the little-endian 4-byte patterns of the float32 values.  A
float32 value is modelled by its 32-bit pattern (a natural below 2^32):
the float64-to-float32 rounding step is exactly the map from the input
array to these bit patterns, and the buffer handed to `b64encode` is their
little-endian byte serialisation, which this section models bit-exactly. -/

/-- The standard base64 alphabet used by Python's `base64.b64encode`. -/
def b64table : List Char :=
  "ABCDEFGHIJKLMNOPQRSTUVWXYZabcdefghijklmnopqrstuvwxyz0123456789+/".toList

/-- The character for a 6-bit group. -/
def tab (n : ℕ) : Char := b64table.getD n '?'

/-- The 6-bit group for a character, `none` when it is not in the
alphabet. -/
def untab (c : Char) : Option ℕ :=
  let i := b64table.indexOf c
  if i < 64 then some i else none

/-- Base64 encoding of a byte list, with `=` padding, 3 bytes to 4
characters. -/
def b64encode : List ℕ → List Char
  | [] => []
  | [a] => [tab (a / 4), tab (a % 4 * 16), '=', '=']
  | [a, b] => [tab (a / 4), tab (a % 4 * 16 + b / 16), tab (b % 16 * 4), '=']
  | a :: b :: c :: rest =>
    tab (a / 4) :: tab (a % 4 * 16 + b / 16) :: tab (b % 16 * 4 + c / 64) ::
      tab (c % 64) :: b64encode rest

/-- Base64 decoding back to the byte list; `none` on text that is not
well-formed base64. -/
def b64decode : List Char → Option (List ℕ)
  | [] => some []
  | c1 :: c2 :: c3 :: c4 :: rest =>
    if c3 = '=' then
      if c4 = '=' ∧ rest = [] then
        match untab c1, untab c2 with
        | some s1, some s2 => some [s1 * 4 + s2 / 16]
        | _, _ => none
      else none
    else if c4 = '=' then
      if rest = [] then
        match untab c1, untab c2, untab c3 with
        | some s1, some s2, some s3 =>
          some [s1 * 4 + s2 / 16, s2 % 16 * 16 + s3 / 4]
        | _, _, _ => none
      else none
    else
      match untab c1, untab c2, untab c3, untab c4 with
      | some s1, some s2, some s3, some s4 =>
        (b64decode rest).map
          (fun l => (s1 * 4 + s2 / 16) :: (s2 % 16 * 16 + s3 / 4) ::
            (s3 % 4 * 64 + s4) :: l)
      | _, _, _, _ => none
  | _ => none

/-- Little-endian byte serialisation of one 32-bit pattern, as laid out in
the `np.float32` buffer. -/
def byteLE (w : ℕ) : List ℕ :=
  [w % 256, w / 256 % 256, w / 65536 % 256, w / 16777216 % 256]

/-- The raw buffer of an array of 32-bit patterns. -/
def wordsToBytes : List ℕ → List ℕ
  | [] => []
  | w :: rest => byteLE w ++ wordsToBytes rest

/-- Regrouping a byte stream into 32-bit patterns, little-endian; `none`
when the byte count is not a multiple of 4. -/
def bytesToWords : List ℕ → Option (List ℕ)
  | [] => some []
  | b0 :: b1 :: b2 :: b3 :: rest =>
    (bytesToWords rest).map
      (fun l => (b0 + 256 * b1 + 65536 * b2 + 16777216 * b3) :: l)
  | _ => none

/-- Model of encodeData: base64 text of the little-endian float32 buffer of the
array, the array being given by the 32-bit patterns of its float32-rounded
entries. -/
def encodeData (ws : List ℕ) : String :=
  String.mk (b64encode (wordsToBytes ws))

/-- Decoding the transported text back to the list of 32-bit float32
patterns: base64-decode, then read 4-byte little-endian groups. -/
def decodeData (s : String) : Option (List ℕ) :=
  match b64decode s.data with
  | none => none
  | some bytes => bytesToWords bytes

/-! ## Concrete instances used by witnesses and counterexamples -/

/-- A tiny mesh with two triangles: element 0 has vertices 10, 11, 12 at
(0,0), (1,0), (0,1) and element 1 has vertices 20, 21, 22 at (2,0), (3,0),
(2,1). -/
def mesh1 : Mesh where
  elementVertices := fun e =>
    if e = 0 then some [10, 11, 12]
    else if e = 1 then some [20, 21, 22] else none
  vertexPoint := fun v =>
    if v = 10 then some (0, 0)
    else if v = 11 then some (1, 0)
    else if v = 12 then some (0, 1)
    else if v = 20 then some (2, 0)
    else if v = 21 then some (3, 0)
    else if v = 22 then some (2, 1) else none

/-- One record: tent 0, layer 0, central vertex 12, element 0. -/
def data1 : List ℤ := [0, 0, 12, 0]

/-- Its times row: bottom times 1/10 for all three vertices, top time 1. -/
def times1 : List ℚ := [1/10, 1/10, 1/10, 1]

/-- Two identical records on element 0. -/
def data2 : List ℤ := data1 ++ data1

/-- Times rows for the two records. -/
def times2 : List ℚ := times1 ++ times1

/-- Two records where the second one's element (element 1, vertices 20, 21,
22) does not contain its central vertex id 12. -/
def dataMiss : List ℤ := [0, 0, 12, 0] ++ [1, 0, 12, 1]

/-- Times rows for the two records of `dataMiss`. -/
def timesMiss : List ℚ := times1 ++ times1

/-- The regular tetrahedron used to check outward orientation. -/
def regTet : List Point3 := [(1, 1, 1), (1, -1, -1), (-1, 1, -1), (-1, -1, 1)]


/-! ## Lemmas about the geometry kernel -/

/-- A nonzero rational 3-vector has positive squared norm. -/
lemma dot3_self_pos (n : Point3) (hn : n ≠ ((0 : ℚ), (0 : ℚ), (0 : ℚ))) :
    0 < dot3 n n := by
  obtain ⟨x, y, z⟩ := n
  have hx : ¬(x = 0 ∧ y = 0 ∧ z = 0) := by
    intro h
    exact hn (by simp [h.1, h.2.1, h.2.2])
  unfold dot3
  rcases not_and_or.mp hx with h | h
  · nlinarith [mul_self_pos.mpr h, mul_self_nonneg y, mul_self_nonneg z]
  · rcases not_and_or.mp h with h | h
    · nlinarith [mul_self_pos.mpr h, mul_self_nonneg x, mul_self_nonneg z]
    · nlinarith [mul_self_pos.mpr h, mul_self_nonneg x, mul_self_nonneg y]

/-- If a dot product with `n` is nonzero then `n` is not the zero vector. -/
lemma ne_zero_of_dot3_ne (v n : Point3) (h : dot3 v n ≠ 0) :
    n ≠ ((0 : ℚ), (0 : ℚ), (0 : ℚ)) := by
  intro hn
  apply h
  rw [hn]
  obtain ⟨a, b, c⟩ := v
  simp [dot3]

/-- The sign of a nonzero number is 1 or -1, hence so is its negation. -/
lemma neg_qsign_pm (x : ℚ) (hx : x ≠ 0) :
    -qsign x = 1 ∨ -qsign x = -1 := by
  unfold qsign
  rcases lt_trichotomy 0 x with h | h | h
  · right; rw [if_pos h]
  · exact absurd h.symm hx
  · left; rw [if_neg (by linarith), if_pos h]; norm_num

/-- The real square norm sum of a nonzero rational vector is positive. -/
lemma castSq_pos (x y z : ℚ) (hn : ((x, y, z) : Point3) ≠ (0, 0, 0)) :
    (0 : ℝ) < (x : ℝ) ^ 2 + (y : ℝ) ^ 2 + (z : ℝ) ^ 2 := by
  have h := dot3_self_pos (x, y, z) hn
  unfold dot3 at h
  have h' : (0 : ℝ) < (x : ℝ) * x + (y : ℝ) * y + (z : ℝ) * z := by
    exact_mod_cast h
  nlinarith [h']

/-- The normalised signed normal `normal/np.linalg.norm(normal)*sign` has
Euclidean length exactly 1 whenever the cross product is nonzero and the
sign is ±1. -/
lemma realNormal_norm_one (n : Point3) (s : ℚ)
    (hn : n ≠ ((0 : ℚ), (0 : ℚ), (0 : ℚ))) (hs : s = 1 ∨ s = -1) :
    norm3R (realNormal (n, s)) = 1 := by
  obtain ⟨x, y, z⟩ := n
  have hq : (0 : ℝ) < (x : ℝ) ^ 2 + (y : ℝ) ^ 2 + (z : ℝ) ^ 2 := castSq_pos x y z hn
  have hr : (0 : ℝ) < Real.sqrt ((x : ℝ) ^ 2 + (y : ℝ) ^ 2 + (z : ℝ) ^ 2) :=
    Real.sqrt_pos.mpr hq
  have hr2 : Real.sqrt ((x : ℝ) ^ 2 + (y : ℝ) ^ 2 + (z : ℝ) ^ 2) ^ 2
      = (x : ℝ) ^ 2 + (y : ℝ) ^ 2 + (z : ℝ) ^ 2 := Real.sq_sqrt hq.le
  have hs2 : (s : ℝ) ^ 2 = 1 := by
    rcases hs with h | h <;> rw [h] <;> norm_num
  unfold norm3R realNormal
  simp only
  set r : ℝ := Real.sqrt ((x : ℝ) ^ 2 + (y : ℝ) ^ 2 + (z : ℝ) ^ 2) with hrdef
  have hexp : ((x : ℝ) / r * (s : ℝ)) ^ 2 + ((y : ℝ) / r * (s : ℝ)) ^ 2
      + ((z : ℝ) / r * (s : ℝ)) ^ 2
      = ((x : ℝ) ^ 2 + (y : ℝ) ^ 2 + (z : ℝ) ^ 2) * (s : ℝ) ^ 2 / r ^ 2 := by
    ring
  rw [hexp, hs2, hr2]
  rw [mul_one, div_self hq.ne']
  exact Real.sqrt_one

/-- If the sign times the rational dot product with a direction is
positive, the real normalised signed normal has positive dot product with
that direction. -/
lemma realNormal_dot_pos (n d : Point3) (s : ℚ)
    (hn : n ≠ ((0 : ℚ), (0 : ℚ), (0 : ℚ))) (hpos : 0 < s * dot3 n d) :
    0 < dotQR (realNormal (n, s)) d := by
  obtain ⟨x, y, z⟩ := n
  obtain ⟨dx, dy, dz⟩ := d
  have hq : (0 : ℝ) < (x : ℝ) ^ 2 + (y : ℝ) ^ 2 + (z : ℝ) ^ 2 := castSq_pos x y z hn
  have hr : (0 : ℝ) < Real.sqrt ((x : ℝ) ^ 2 + (y : ℝ) ^ 2 + (z : ℝ) ^ 2) :=
    Real.sqrt_pos.mpr hq
  unfold dotQR realNormal
  simp only
  set r : ℝ := Real.sqrt ((x : ℝ) ^ 2 + (y : ℝ) ^ 2 + (z : ℝ) ^ 2) with hrdef
  have hcast : (0 : ℝ) < (s : ℝ) * ((x : ℝ) * dx + (y : ℝ) * dy + (z : ℝ) * dz) := by
    have : (0 : ℝ) < ((s * dot3 (x, y, z) (dx, dy, dz) : ℚ) : ℝ) := by
      exact_mod_cast hpos
    unfold dot3 at this
    push_cast at this
    linarith [this]
  have hexp : (x : ℝ) / r * (s : ℝ) * (dx : ℝ) + (y : ℝ) / r * (s : ℝ) * (dy : ℝ)
      + (z : ℝ) / r * (s : ℝ) * (dz : ℝ)
      = (s : ℝ) * ((x : ℝ) * dx + (y : ℝ) * dy + (z : ℝ) * dz) / r := by
    ring
  rw [hexp]
  exact div_pos hcast hr




/-- Binding on a successful `Except` computation. -/
lemma exbind_ok {α β : Type} (x : α) (f : α → Except String β) :
    (Except.ok x >>= f : Except String β) = f x := rfl

/-- Binding on a failed `Except` computation. -/
lemma exbind_error {α β : Type} (e : String) (f : α → Except String β) :
    (Except.error e >>= f : Except String β) = .error e := rfl

/-- The four roll-by-one difference columns of a 4-point element. -/
lemma colVec4 (a b c d : Point3) :
    colVec [a, b, c, d] 0 = .ok (sub3 a d) ∧
    colVec [a, b, c, d] 1 = .ok (sub3 b a) ∧
    colVec [a, b, c, d] 2 = .ok (sub3 c b) ∧
    colVec [a, b, c, d] 3 = .ok (sub3 d c) := by
  refine ⟨?_, ?_, ?_, ?_⟩ <;> simp [colVec]

/-- Evaluation of GetFacesAndNormals on a 4-point element: each face is
the index triple `[j,k,m]` (winding possibly flipped by the sign test) and
each stored normal is the cross product of the two roll-difference vectors
spanning that face with its orientation sign. -/
lemma getFacesAndNormals4 (a b c d : Point3) :
    getFacesAndNormals [a, b, c, d] =
      .ok ([(if 0 < - qsign (dot3 (sub3 a d) (cross3 (sub3 c b) (sub3 d c)))
             then [1, 2, 3] else [1, 3, 2]),
            (if 0 < - qsign (dot3 (sub3 b a) (cross3 (sub3 d c) (sub3 a d)))
             then [2, 3, 0] else [2, 0, 3]),
            (if 0 < - qsign (dot3 (sub3 c b) (cross3 (sub3 a d) (sub3 b a)))
             then [3, 0, 1] else [3, 1, 0]),
            (if 0 < - qsign (dot3 (sub3 d c) (cross3 (sub3 b a) (sub3 c b)))
             then [0, 1, 2] else [0, 2, 1])],
           [(cross3 (sub3 c b) (sub3 d c),
             - qsign (dot3 (sub3 a d) (cross3 (sub3 c b) (sub3 d c)))),
            (cross3 (sub3 d c) (sub3 a d),
             - qsign (dot3 (sub3 b a) (cross3 (sub3 d c) (sub3 a d)))),
            (cross3 (sub3 a d) (sub3 b a),
             - qsign (dot3 (sub3 c b) (cross3 (sub3 a d) (sub3 b a)))),
            (cross3 (sub3 b a) (sub3 c b),
             - qsign (dot3 (sub3 d c) (cross3 (sub3 b a) (sub3 c b))))]) := by
  obtain ⟨h0, h1, h2, h3⟩ := colVec4 a b c d
  unfold getFacesAndNormals kernelStep
  norm_num [h0, h1, h2, h3, exbind_ok]

/-- C4: on a non-degenerate 4-point input, `GetFacesAndNormals` returns
exactly 4 faces (the result lists have exactly four entries, in loop
order i = 0,1,2,3) whose vertex-index sets are exactly the four size-3
subsets of {0,1,2,3}, the i-th one missing exactly index i; and every
returned normal (the stored cross product, sign-oriented and normalised by
`realNormal`) has Euclidean length exactly 1, in particular within the
1e-6 tolerance. -/
theorem C4_faces_and_unit_normals (a b c d : Point3) (h : NonDeg a b c d) :
    ∃ f0 f1 f2 f3 n0 n1 n2 n3,
      getFacesAndNormals [a, b, c, d] = .ok ([f0, f1, f2, f3], [n0, n1, n2, n3]) ∧
      f0.toFinset = ({0, 1, 2, 3} : Finset ℕ).erase 0 ∧
      f1.toFinset = ({0, 1, 2, 3} : Finset ℕ).erase 1 ∧
      f2.toFinset = ({0, 1, 2, 3} : Finset ℕ).erase 2 ∧
      f3.toFinset = ({0, 1, 2, 3} : Finset ℕ).erase 3 ∧
      norm3R (realNormal n0) = 1 ∧ norm3R (realNormal n1) = 1 ∧
      norm3R (realNormal n2) = 1 ∧ norm3R (realNormal n3) = 1 ∧
      |norm3R (realNormal n0) - 1| ≤ 1 / 1000000 ∧
      |norm3R (realNormal n1) - 1| ≤ 1 / 1000000 ∧
      |norm3R (realNormal n2) - 1| ≤ 1 / 1000000 ∧
      |norm3R (realNormal n3) - 1| ≤ 1 / 1000000 := by
  obtain ⟨h0, h1, h2, h3⟩ := h
  have e0 := realNormal_norm_one _ _ (ne_zero_of_dot3_ne _ _ h0) (neg_qsign_pm _ h0)
  have e1 := realNormal_norm_one _ _ (ne_zero_of_dot3_ne _ _ h1) (neg_qsign_pm _ h1)
  have e2 := realNormal_norm_one _ _ (ne_zero_of_dot3_ne _ _ h2) (neg_qsign_pm _ h2)
  have e3 := realNormal_norm_one _ _ (ne_zero_of_dot3_ne _ _ h3) (neg_qsign_pm _ h3)
  refine ⟨_, _, _, _, _, _, _, _, getFacesAndNormals4 a b c d,
    ?_, ?_, ?_, ?_, e0, e1, e2, e3, ?_, ?_, ?_, ?_⟩ <;>
    first
    | (split <;> decide)
    | (rw [e0]; norm_num)
    | (rw [e1]; norm_num)
    | (rw [e2]; norm_num)
    | (rw [e3]; norm_num)

/-- Witness for C4: the regular tetrahedron satisfies the non-degeneracy
hypothesis and hence the theorem's conclusion. -/
theorem C4_faces_and_unit_normals_witness :
    NonDeg (1, 1, 1) (1, -1, -1) (-1, 1, -1) (-1, -1, 1) ∧
    (∃ f0 f1 f2 f3 n0 n1 n2 n3,
      getFacesAndNormals regTet = .ok ([f0, f1, f2, f3], [n0, n1, n2, n3]) ∧
      f0.toFinset = ({0, 1, 2, 3} : Finset ℕ).erase 0 ∧
      f1.toFinset = ({0, 1, 2, 3} : Finset ℕ).erase 1 ∧
      f2.toFinset = ({0, 1, 2, 3} : Finset ℕ).erase 2 ∧
      f3.toFinset = ({0, 1, 2, 3} : Finset ℕ).erase 3 ∧
      norm3R (realNormal n0) = 1 ∧ norm3R (realNormal n1) = 1 ∧
      norm3R (realNormal n2) = 1 ∧ norm3R (realNormal n3) = 1 ∧
      |norm3R (realNormal n0) - 1| ≤ 1 / 1000000 ∧
      |norm3R (realNormal n1) - 1| ≤ 1 / 1000000 ∧
      |norm3R (realNormal n2) - 1| ≤ 1 / 1000000 ∧
      |norm3R (realNormal n3) - 1| ≤ 1 / 1000000) :=
  ⟨by refine ⟨?_, ?_, ?_, ?_⟩ <;> norm_num [sub3, cross3, dot3],
   C4_faces_and_unit_normals (1, 1, 1) (1, -1, -1) (-1, 1, -1) (-1, -1, 1)
    (by refine ⟨?_, ?_, ?_, ?_⟩ <;> norm_num [sub3, cross3, dot3])⟩

/-- C5: for the regular tetrahedron (1,1,1), (1,-1,-1), (-1,1,-1),
(-1,-1,1), `GetFacesAndNormals` returns the four faces and signed normals
below, and each returned (normalised) normal points away from the
tetrahedron's centroid: its dot product with the vector from the
tetrahedron centroid to the face centroid is strictly positive. -/
theorem C5_regular_tet_outward :
    getFacesAndNormals regTet =
      .ok ([[1, 3, 2], [2, 3, 0], [3, 1, 0], [0, 1, 2]],
           [((4, 4, 4), -1), ((-4, 4, 4), 1), ((-4, 4, -4), -1), ((4, 4, -4), 1)]) ∧
    0 < dotQR (realNormal ((4, 4, 4), -1))
        (sub3 (centroidOf regTet [1, 3, 2]) (centroid4 regTet)) ∧
    0 < dotQR (realNormal ((-4, 4, 4), 1))
        (sub3 (centroidOf regTet [2, 3, 0]) (centroid4 regTet)) ∧
    0 < dotQR (realNormal ((-4, 4, -4), -1))
        (sub3 (centroidOf regTet [3, 1, 0]) (centroid4 regTet)) ∧
    0 < dotQR (realNormal ((4, 4, -4), 1))
        (sub3 (centroidOf regTet [0, 1, 2]) (centroid4 regTet)) := by
  refine ⟨?_, ?_, ?_, ?_, ?_⟩
  · norm_num [getFacesAndNormals, kernelStep, colVec, exbind_ok, regTet, qsign,
      sub3, cross3, dot3]
  · exact realNormal_dot_pos _ _ _ (by norm_num)
      (by norm_num [centroidOf, centroid4, smul3, add3, sub3, dot3, regTet])
  · exact realNormal_dot_pos _ _ _ (by norm_num)
      (by norm_num [centroidOf, centroid4, smul3, add3, sub3, dot3, regTet])
  · exact realNormal_dot_pos _ _ _ (by norm_num)
      (by norm_num [centroidOf, centroid4, smul3, add3, sub3, dot3, regTet])
  · exact realNormal_dot_pos _ _ _ (by norm_num)
      (by norm_num [centroidOf, centroid4, smul3, add3, sub3, dot3, regTet])

/-! ## Lemmas about the payload encoder -/

/-- Case-analysis principle following the 3-byte chunking of base64. -/
def chunk3Cases {P : List ℕ → Prop} (h0 : P []) (h1 : ∀ a, P [a])
    (h2 : ∀ a b, P [a, b]) (h3 : ∀ a b c l, P l → P (a :: b :: c :: l)) :
    ∀ l, P l
  | [] => h0
  | [a] => h1 a
  | [a, b] => h2 a b
  | a :: b :: c :: l => h3 a b c l (chunk3Cases h0 h1 h2 h3 l)

/-- Decoding a base64 alphabet character recovers its 6-bit value. -/
lemma untab_tab (x : ℕ) (hx : x < 64) : untab (tab x) = some x :=
  (by decide : ∀ y : Fin 64, untab (tab y.1) = some y.1) ⟨x, hx⟩

/-- No base64 alphabet character is the padding character. -/
lemma tab_ne_pad (x : ℕ) (hx : x < 64) : tab x ≠ '=' :=
  (by decide : ∀ y : Fin 64, tab y.1 ≠ '=') ⟨x, hx⟩

/-- Base64 round trip on byte lists. -/
lemma b64_roundtrip (l : List ℕ) (h : ∀ b ∈ l, b < 256) :
    b64decode (b64encode l) = some l := by
  induction l using chunk3Cases with
  | h0 => rfl
  | h1 a =>
    have ha : a < 256 := h a (by simp)
    simp [b64encode, b64decode, untab_tab _ (show a / 4 < 64 by omega),
      untab_tab _ (show a % 4 * 16 < 64 by omega)]
    omega
  | h2 a b =>
    have ha : a < 256 := h a (by simp)
    have hb : b < 256 := h b (by simp)
    simp [b64encode, b64decode, tab_ne_pad _ (show b % 16 * 4 < 64 by omega),
      untab_tab _ (show a / 4 < 64 by omega),
      untab_tab _ (show a % 4 * 16 + b / 16 < 64 by omega),
      untab_tab _ (show b % 16 * 4 < 64 by omega)]
    omega
  | h3 a b c l ih =>
    have ha : a < 256 := h a (by simp)
    have hb : b < 256 := h b (by simp)
    have hc : c < 256 := h c (by simp)
    have hl : ∀ x ∈ l, x < 256 := fun x hx => h x (by simp [hx])
    simp [b64encode, b64decode,
      tab_ne_pad _ (show b % 16 * 4 + c / 64 < 64 by omega),
      tab_ne_pad _ (show c % 64 < 64 by omega),
      untab_tab _ (show a / 4 < 64 by omega),
      untab_tab _ (show a % 4 * 16 + b / 16 < 64 by omega),
      untab_tab _ (show b % 16 * 4 + c / 64 < 64 by omega),
      untab_tab _ (show c % 64 < 64 by omega), ih hl]
    omega

/-- Every serialised byte is below 256. -/
lemma byteLE_lt (w : ℕ) : ∀ b ∈ byteLE w, b < 256 := by
  simp [byteLE]
  omega

/-- Every byte of the float32 buffer is below 256. -/
lemma wordsToBytes_lt (ws : List ℕ) : ∀ b ∈ wordsToBytes ws, b < 256 := by
  induction ws with
  | nil => simp [wordsToBytes]
  | cons w rest ih =>
    intro b hb
    simp only [wordsToBytes, List.mem_append] at hb
    rcases hb with h | h
    · exact byteLE_lt w b h
    · exact ih b h

/-- Regrouping the little-endian buffer recovers the 32-bit patterns. -/
lemma bytesToWords_wordsToBytes (ws : List ℕ) (h : ∀ w ∈ ws, w < 4294967296) :
    bytesToWords (wordsToBytes ws) = some ws := by
  induction ws with
  | nil => rfl
  | cons w rest ih =>
    have hw : w < 4294967296 := h w (by simp)
    have hrest : ∀ x ∈ rest, x < 4294967296 := fun x hx => h x (by simp [hx])
    simp [wordsToBytes, byteLE, bytesToWords, ih hrest]
    omega

/-- C6: `encodeData` is reversible.  An input float array is represented by
the list of 32-bit patterns of its entries rounded to float32 (the
`np.float32` conversion step); `encodeData` serialises those patterns
little-endian and base64-encodes the buffer, and decoding the produced
text as base64 followed by reading little-endian 32-bit groups recovers
exactly the float32-rounded input, elementwise, for arrays of any length
(0, 1 and 10000 included). -/
theorem C6_encode_decode_roundtrip (ws : List ℕ) (h : ∀ w ∈ ws, w < 4294967296) :
    decodeData (encodeData ws) = some ws := by
  simp [decodeData, encodeData, b64_roundtrip _ (wordsToBytes_lt ws),
    bytesToWords_wordsToBytes ws h]

/-- Witness for C6 at the patterns of the float32 values 0.0, 1.0, -1.0. -/
theorem C6_encode_decode_roundtrip_witness :
    (∀ w ∈ [0, 1065353216, 3212836864], w < 4294967296) ∧
    decodeData (encodeData [0, 1065353216, 3212836864]) =
      some [0, 1065353216, 3212836864] :=
  ⟨by decide, C6_encode_decode_roundtrip [0, 1065353216, 3212836864] (by decide)⟩

/-! ## Shape lemmas for the kernel and the flattener -/

/-- A successful column access implies the index is in range. -/
lemma colVec_ok_lt {el : List Point3} {i : ℕ} {v : Point3}
    (h : colVec el i = .ok v) : i < el.length := by
  unfold colVec at h
  cases hg : el.get? i with
  | none => rw [hg] at h; exact absurd h (by simp)
  | some a =>
    exact List.get?_eq_some.mp hg |>.1

/-- An out-of-range column access is an `IndexError`. -/
lemma colVec_err_of_ge {el : List Point3} {i : ℕ} (h : el.length ≤ i) :
    colVec el i = .error "IndexError: column" := by
  unfold colVec
  rw [List.get?_eq_none.mpr h]

/-- A successful kernel iteration has all face indices below 4, and its
column accesses were in range. -/
lemma kernelStep_ok {el : List Point3} {i : ℕ} {f : List ℕ} {p : Point3 × ℚ}
    (h : kernelStep el i = .ok (f, p)) :
    (∀ ix ∈ f, ix < 4) ∧ i < el.length := by
  unfold kernelStep at h
  dsimp only at h
  cases hk : colVec el ((i + 2) % 4) with
  | error e => rw [hk] at h; exact absurd h (by simp [exbind_error])
  | ok vk =>
    cases hm : colVec el ((i + 3) % 4) with
    | error e => rw [hk, hm] at h; exact absurd h (by simp [exbind_ok, exbind_error])
    | ok vm =>
      cases hi : colVec el i with
      | error e =>
        rw [hk, hm, hi] at h; exact absurd h (by simp [exbind_ok, exbind_error])
      | ok vi =>
        rw [hk, hm, hi] at h
        simp only [exbind_ok] at h
        refine ⟨?_, colVec_ok_lt hi⟩
        have hf : f = (if 0 < - qsign (dot3 vi (cross3 vk vm))
            then [(i + 1) % 4, (i + 2) % 4, (i + 3) % 4]
            else [(i + 1) % 4, (i + 3) % 4, (i + 2) % 4]) := by
          have := h
          simp only [Except.ok.injEq, Prod.mk.injEq] at this
          exact this.1.symm
        intro ix hix
        rw [hf] at hix
        have h4 : (0 : ℕ) < 4 := by norm_num
        split at hix <;> simp at hix <;>
          rcases hix with h | h | h <;> rw [h] <;> exact Nat.mod_lt _ h4

/-- A kernel iteration on fewer than 4 points fails. -/
lemma kernelStep0_err_of_short {el : List Point3} (h : el.length < 4) :
    ∃ e, kernelStep el 0 = .error e := by
  unfold kernelStep
  dsimp only
  cases hk : colVec el 2 with
  | error e => exact ⟨e, by simp [exbind_error]⟩
  | ok vk =>
    have h2 : el.length = 3 := by
      have := colVec_ok_lt hk
      omega
    have h3 : colVec el 3 = .error "IndexError: column" :=
      colVec_err_of_ge (by omega)
    refine ⟨"IndexError: column", ?_⟩
    simp [exbind_ok, exbind_error, h3]

/-- Shape of a successful `GetFacesAndNormals` call: exactly 4 faces and 4
normals, every face index below 4, and at least 4 input points. -/
lemma gFN_ok {el : List Point3} {fs : List (List ℕ)} {ns : List (Point3 × ℚ)}
    (h : getFacesAndNormals el = .ok (fs, ns)) :
    fs.length = 4 ∧ ns.length = 4 ∧ (∀ f ∈ fs, ∀ ix ∈ f, ix < 4) ∧
    4 ≤ el.length := by
  unfold getFacesAndNormals at h
  cases h0 : kernelStep el 0 with
  | error e => rw [h0] at h; exact absurd h (by simp [exbind_error])
  | ok r0 =>
    cases h1 : kernelStep el 1 with
    | error e => rw [h0, h1] at h; exact absurd h (by simp [exbind_ok, exbind_error])
    | ok r1 =>
      cases h2 : kernelStep el 2 with
      | error e =>
        rw [h0, h1, h2] at h; exact absurd h (by simp [exbind_ok, exbind_error])
      | ok r2 =>
        cases h3 : kernelStep el 3 with
        | error e =>
          rw [h0, h1, h2, h3] at h
          exact absurd h (by simp [exbind_ok, exbind_error])
        | ok r3 =>
          rw [h0, h1, h2, h3] at h
          simp only [exbind_ok, Except.ok.injEq, Prod.mk.injEq] at h
          obtain ⟨hfs, hns⟩ := h
          obtain ⟨hb0, _⟩ := kernelStep_ok (h0.trans (by rw [Prod.mk.eta]))
          obtain ⟨hb1, _⟩ := kernelStep_ok (h1.trans (by rw [Prod.mk.eta]))
          obtain ⟨hb2, _⟩ := kernelStep_ok (h2.trans (by rw [Prod.mk.eta]))
          obtain ⟨hb3, hlt⟩ := kernelStep_ok (h3.trans (by rw [Prod.mk.eta]))
          refine ⟨by rw [← hfs]; rfl, by rw [← hns]; rfl, ?_, by omega⟩
          intro f hf
          rw [← hfs] at hf
          simp only [List.mem_cons, List.not_mem_nil, or_false] at hf
          rcases hf with h | h | h | h <;> rw [h]
          exacts [hb0, hb1, hb2, hb3]

/-- Number of occurrences of the central vertex id in a vertex-id list. -/
def countMatch (vnr : ℤ) : List ℤ → ℕ
  | [] => 0
  | v :: vs => (if v = vnr then 1 else 0) + countMatch vnr vs

/-- A list without the central id has no matches. -/
lemma countMatch_eq_zero {vnr : ℤ} {evs : List ℤ} (h : vnr ∉ evs) :
    countMatch vnr evs = 0 := by
  induction evs with
  | nil => rfl
  | cons v vs ih =>
    simp only [List.mem_cons, not_or] at h
    have hne : v ≠ vnr := fun he => h.1 he.symm
    simp [countMatch, ih h.2, hne]

/-- A duplicate-free list contains the central id at most once. -/
lemma countMatch_le_one {vnr : ℤ} {evs : List ℤ} (h : evs.Nodup) :
    countMatch vnr evs ≤ 1 := by
  induction evs with
  | nil => simp [countMatch]
  | cons v vs ih =>
    rw [List.nodup_cons] at h
    by_cases hv : v = vnr
    · subst hv
      simp [countMatch, countMatch_eq_zero h.1]
    · simp [countMatch, hv, ih h.2]

/-- A successful vertex loop emits one point per vertex plus one extra
per central-vertex occurrence. -/
lemma bv_ok_length {mesh : Mesh} {vnr : ℤ} {tbots : List ℚ} {ttop : ℚ} :
    ∀ {evs : List ℤ} {j : ℕ} {acc : List Point3} {center : Option ℕ}
      {verts : List Point3} {center' : Option ℕ},
    buildVerts mesh vnr tbots ttop evs j acc center = .ok (verts, center') →
    verts.length = acc.length + evs.length + countMatch vnr evs := by
  intro evs
  induction evs with
  | nil =>
    intro j acc center verts center' h
    rw [buildVerts] at h
    simp only [Except.ok.injEq, Prod.mk.injEq] at h
    simp [← h.1, countMatch]
  | cons v vs ih =>
    intro j acc center verts center' h
    rw [buildVerts] at h
    cases hv : mesh.vertexPoint v with
    | none => rw [hv] at h; exact absurd h (by simp)
    | some xy =>
      obtain ⟨x, y⟩ := xy
      rw [hv] at h
      cases ht : tbots.get? j with
      | none => rw [ht] at h; exact absurd h (by simp)
      | some tb =>
        rw [ht] at h
        simp only at h
        by_cases hveq : v = vnr
        · rw [if_pos hveq] at h
          have := ih h
          simp only [List.length_append] at this
          simp [this, countMatch, hveq]
          omega
        · rw [if_neg hveq] at h
          have := ih h
          simp only [List.length_append] at this
          simp [this, countMatch, hveq]
          omega

/-- A successful vertex loop on a non-empty element implies every visited
bottom-time index was in range. -/
lemma bv_ok_bound {mesh : Mesh} {vnr : ℤ} {tbots : List ℚ} {ttop : ℚ} :
    ∀ {evs : List ℤ} {j : ℕ} {acc : List Point3} {center : Option ℕ}
      {verts : List Point3} {center' : Option ℕ},
    evs ≠ [] →
    buildVerts mesh vnr tbots ttop evs j acc center = .ok (verts, center') →
    j + evs.length ≤ tbots.length := by
  intro evs
  induction evs with
  | nil => intro _ _ _ _ _ hne _; exact absurd rfl hne
  | cons v vs ih =>
    intro j acc center verts center' _ h
    rw [buildVerts] at h
    cases hv : mesh.vertexPoint v with
    | none => rw [hv] at h; exact absurd h (by simp)
    | some xy =>
      obtain ⟨x, y⟩ := xy
      rw [hv] at h
      cases ht : tbots.get? j with
      | none => rw [ht] at h; exact absurd h (by simp)
      | some tb =>
        have hj : j < tbots.length := List.get?_eq_some.mp ht |>.1
        rw [ht] at h
        simp only at h
        rcases eq_or_ne vs [] with hvs | hne
        · subst hvs
          simp only [List.length_cons, List.length_nil]
          omega
        · by_cases hveq : v = vnr
          · rw [if_pos hveq] at h
            have hih := ih hne h
            simp only [List.length_cons]
            omega
          · rw [if_neg hveq] at h
            have hih := ih hne h
            simp only [List.length_cons]
            omega

/-- When the element does not contain the central vertex id, the loop
never reassigns `center`. -/
lemma bv_ok_center_of_not_mem {mesh : Mesh} {vnr : ℤ} {tbots : List ℚ}
    {ttop : ℚ} :
    ∀ {evs : List ℤ} {j : ℕ} {acc : List Point3} {center : Option ℕ}
      {verts : List Point3} {center' : Option ℕ},
    vnr ∉ evs →
    buildVerts mesh vnr tbots ttop evs j acc center = .ok (verts, center') →
    center' = center := by
  intro evs
  induction evs with
  | nil =>
    intro j acc center verts center' _ h
    rw [buildVerts] at h
    simp only [Except.ok.injEq, Prod.mk.injEq] at h
    exact h.2.symm
  | cons v vs ih =>
    intro j acc center verts center' hmem h
    simp only [List.mem_cons, not_or] at hmem
    rw [buildVerts] at h
    cases hv : mesh.vertexPoint v with
    | none => rw [hv] at h; exact absurd h (by simp)
    | some xy =>
      obtain ⟨x, y⟩ := xy
      rw [hv] at h
      cases ht : tbots.get? j with
      | none => rw [ht] at h; exact absurd h (by simp)
      | some tb =>
        rw [ht] at h
        simp only at h
        rw [if_neg (fun he : v = vnr => hmem.1 he.symm)] at h
        exact ih hmem.2 h

/-- An unknown vertex id anywhere in the element makes the vertex loop
fail. -/
lemma bv_err_of_unknown {mesh : Mesh} {vnr : ℤ} {tbots : List ℚ} {ttop : ℚ} :
    ∀ {evs : List ℤ}, (∃ v ∈ evs, mesh.vertexPoint v = none) →
    ∀ (j : ℕ) (acc : List Point3) (center : Option ℕ),
    ∃ e, buildVerts mesh vnr tbots ttop evs j acc center = .error e := by
  intro evs
  induction evs with
  | nil => rintro ⟨v, hv, _⟩ _ _ _; exact absurd hv (by simp)
  | cons w ws ih =>
    rintro ⟨v, hv, hnone⟩ j acc center
    cases hw : mesh.vertexPoint w with
    | none =>
      refine ⟨"KeyError: unknown vertex", ?_⟩
      rw [buildVerts, hw]
    | some xy =>
      obtain ⟨x, y⟩ := xy
      have hvtail : v ∈ ws := by
        rcases List.mem_cons.mp hv with h | h
        · subst h; rw [hw] at hnone; exact absurd hnone (by simp)
        · exact h
      cases ht : tbots.get? j with
      | none =>
        refine ⟨"IndexError: bottom time", ?_⟩
        rw [buildVerts, hw, ht]
      | some tb =>
        by_cases hveq : w = vnr
        · obtain ⟨e, he⟩ := ih ⟨v, hvtail, hnone⟩ (j + 1)
            (acc ++ [(x, y, tb), (x, y, ttop)]) (some j)
          refine ⟨e, ?_⟩
          rw [buildVerts, hw, ht]
          simp only
          rw [if_pos hveq]
          exact he
        · obtain ⟨e, he⟩ := ih ⟨v, hvtail, hnone⟩ (j + 1) (acc ++ [(x, y, tb)]) center
          refine ⟨e, ?_⟩
          rw [buildVerts, hw, ht]
          simp only
          rw [if_neg hveq]
          exact he

/-- Destructuring a successful pre-kernel record step: the element resolved,
the vertex loop succeeded, `center` ended assigned, and the accumulator
gained exactly the `nr`, `layer` and tent-center entries. -/
lemma pre_ok {mesh : Mesh} {nr layer vnr elnr : ℤ} {t0 t1 t2 ttop : ℚ}
    {center : Option ℕ} {acc acc2 : Accum} {verts : List Point3}
    {center' : Option ℕ}
    (h : stepRecordPre mesh (nr, layer, vnr, elnr) (t0, t1, t2, ttop) center acc
        = .ok (acc2, verts, center')) :
    ∃ evs c, mesh.elementVertices elnr = some evs ∧
      buildVerts mesh vnr [t0, t1, t2] ttop evs 0 [] center = .ok (verts, center') ∧
      center' = some c ∧
      acc2 = { acc with
        nrs := acc.nrs ++ [nr]
        layers := acc.layers ++ [layer]
        tentcenters := acc.tentcenters ++ [c] } := by
  unfold stepRecordPre at h
  simp only at h
  cases hev : mesh.elementVertices elnr with
  | none => rw [hev] at h; exact absurd h (by simp)
  | some evs =>
    rw [hev] at h
    simp only at h
    cases hbv : buildVerts mesh vnr [t0, t1, t2] ttop evs 0 [] center with
    | error e => rw [hbv] at h; exact absurd h (by simp)
    | ok pr =>
      obtain ⟨vs, ctr⟩ := pr
      rw [hbv] at h
      simp only at h
      cases ctr with
      | none => exact absurd h (by simp)
      | some c =>
        simp only [Except.ok.injEq, Prod.mk.injEq] at h
        obtain ⟨ha, hv, hc⟩ := h
        exact ⟨evs, c, rfl, by rw [← hv, ← hc]; exact hbv, hc.symm, ha.symm⟩

/-- A successful full record step grows the global lists by exactly one
element's worth: 4 points, 4 faces, 4 normals, one tent-center, one tent
number, one layer; and every newly stored face triple has all its indices
below 4 (faces are appended with element-local indices). -/
lemma step_ok {mesh : Mesh}
    (hnd : ∀ e evs, mesh.elementVertices e = some evs → evs.Nodup)
    {dR : ℤ × ℤ × ℤ × ℤ} {tR : ℚ × ℚ × ℚ × ℚ} {center : Option ℕ}
    {acc acc' : Accum} {center' : Option ℕ}
    (h : stepRecord mesh dR tR center acc = .ok (acc', center')) :
    acc'.gvertices.length = acc.gvertices.length + 4 ∧
    acc'.faces.length = acc.faces.length + 4 ∧
    acc'.normals.length = acc.normals.length + 4 ∧
    acc'.tentcenters.length = acc.tentcenters.length + 1 ∧
    acc'.nrs.length = acc.nrs.length + 1 ∧
    acc'.layers.length = acc.layers.length + 1 ∧
    (∀ f ∈ acc'.faces, f ∈ acc.faces ∨ ∀ ix ∈ f, ix < 4) := by
  obtain ⟨nr, layer, vnr, elnr⟩ := dR
  obtain ⟨t0, t1, t2, ttop⟩ := tR
  unfold stepRecord at h
  cases hpre : stepRecordPre mesh (nr, layer, vnr, elnr) (t0, t1, t2, ttop)
      center acc with
  | error e => rw [hpre] at h; exact absurd h (by simp)
  | ok pr =>
    obtain ⟨acc2, verts, ctr⟩ := pr
    rw [hpre] at h
    simp only at h
    cases hg : getFacesAndNormals verts with
    | error e => rw [hg] at h; exact absurd h (by simp)
    | ok fn =>
      obtain ⟨fcs, nrmls⟩ := fn
      rw [hg] at h
      simp only [Except.ok.injEq, Prod.mk.injEq] at h
      obtain ⟨hacc, _⟩ := h
      obtain ⟨evs, c, hev, hbv, hc, hacc2⟩ := pre_ok hpre
      obtain ⟨hf4, hn4, hbound, hge4⟩ := gFN_ok hg
      have hlen := bv_ok_length hbv
      have hnodup := hnd elnr evs hev
      have hcm : countMatch vnr evs ≤ 1 := countMatch_le_one hnodup
      have hevne : evs ≠ [] := by
        rintro rfl
        simp only [countMatch, List.length_nil] at hlen
        omega
      have hb3 : 0 + evs.length ≤ [t0, t1, t2].length := bv_ok_bound hevne hbv
      simp only [List.length_cons, List.length_nil] at hb3
      have hv4 : verts.length = 4 := by
        simp only [List.length_nil] at hlen
        omega
      subst hacc hacc2
      refine ⟨?_, ?_, ?_, ?_, ?_, ?_, ?_⟩ <;>
        simp [List.length_append, hv4, hf4, hn4]
      intro f hf
      rcases hf with hf | hf
      · exact Or.inl hf
      · exact Or.inr (hbound f hf)

/-- Accumulated shape of a successful record loop: each record contributes
exactly 4 global vertices, 4 faces, 4 normals and one entry to each of the
tent-center/number/layer lists, and every face triple that was appended
holds element-local indices below 4. -/
lemma proc_ok {mesh : Mesh}
    (hnd : ∀ e evs, mesh.elementVertices e = some evs → evs.Nodup)
    {times : List (ℚ × ℚ × ℚ × ℚ)} :
    ∀ {recs : List (ℤ × ℤ × ℤ × ℤ)} {i : ℕ} {center : Option ℕ}
      {acc out : Accum},
    processFrom mesh times recs i center acc = .ok out →
    out.gvertices.length = acc.gvertices.length + 4 * recs.length ∧
    out.faces.length = acc.faces.length + 4 * recs.length ∧
    out.normals.length = acc.normals.length + 4 * recs.length ∧
    out.tentcenters.length = acc.tentcenters.length + recs.length ∧
    out.nrs.length = acc.nrs.length + recs.length ∧
    out.layers.length = acc.layers.length + recs.length ∧
    (∀ f ∈ out.faces, f ∈ acc.faces ∨ ∀ ix ∈ f, ix < 4) := by
  intro recs
  induction recs with
  | nil =>
    intro i center acc out h
    rw [processFrom] at h
    simp only [Except.ok.injEq] at h
    subst h
    exact ⟨by simp, by simp, by simp, by simp, by simp, by simp,
      fun f hf => Or.inl hf⟩
  | cons dR rest ih =>
    intro i center acc out h
    rw [processFrom] at h
    cases ht : times.get? i with
    | none => rw [ht] at h; exact absurd h (by simp)
    | some tR =>
      rw [ht] at h
      simp only at h
      cases hs : stepRecord mesh dR tR center acc with
      | error e => rw [hs] at h; exact absurd h (by simp)
      | ok pr =>
        obtain ⟨acc1, c1⟩ := pr
        rw [hs] at h
        simp only at h
        obtain ⟨g1, f1, n1, t1, r1, l1, b1⟩ := step_ok hnd hs
        obtain ⟨g2, f2, n2, t2, r2, l2, b2⟩ := ih h
        refine ⟨?_, ?_, ?_, ?_, ?_, ?_, ?_⟩
        · rw [g2, g1]; simp; ring
        · rw [f2, f1]; simp; ring
        · rw [n2, n1]; simp; ring
        · rw [t2, t1]; simp; ring
        · rw [r2, r1]; simp; ring
        · rw [l2, l1]; simp; ring
        · intro f hf
          rcases b2 f hf with hf1 | hb
          · exact b1 f hf1
          · exact Or.inr hb

/-- Case-analysis principle following the 4-entry chunking of `reshape4`. -/
def chunk4Cases {α : Type} {P : List α → Prop} (h0 : P []) (h1 : ∀ a, P [a])
    (h2 : ∀ a b, P [a, b]) (h3 : ∀ a b c, P [a, b, c])
    (h4 : ∀ a b c d l, P l → P (a :: b :: c :: d :: l)) : ∀ l, P l
  | [] => h0
  | [a] => h1 a
  | [a, b] => h2 a b
  | [a, b, c] => h3 a b c
  | a :: b :: c :: d :: l => h4 a b c d l (chunk4Cases h0 h1 h2 h3 h4 l)

/-- A successful reshape means the flat length was a multiple of 4. -/
lemma reshape4_ok_len {α : Type} :
    ∀ {l : List α} {r : List (α × α × α × α)},
    reshape4 l = .ok r → l.length = 4 * r.length := by
  intro l
  induction l using chunk4Cases with
  | h0 =>
    intro r h
    rw [reshape4] at h
    simp only [Except.ok.injEq] at h
    simp [← h]
  | h1 a =>
    intro r h
    rw [show reshape4 [a] = .error "ValueError: cannot reshape" from rfl] at h
    exact absurd h (by simp)
  | h2 a b =>
    intro r h
    rw [show reshape4 [a, b] = .error "ValueError: cannot reshape" from rfl] at h
    exact absurd h (by simp)
  | h3 a b c =>
    intro r h
    rw [show reshape4 [a, b, c] = .error "ValueError: cannot reshape" from rfl] at h
    exact absurd h (by simp)
  | h4 a b c d l ih =>
    intro r h
    rw [reshape4] at h
    cases hr : reshape4 l with
    | error e => rw [hr] at h; exact absurd h (by simp [Except.map])
    | ok r0 =>
      rw [hr] at h
      simp only [Except.map, Except.ok.injEq] at h
      subst h
      have := ih hr
      simp [this]
      ring

/-- Every element of `mesh1` has pairwise-distinct vertex ids. -/
lemma mesh1_nodup : ∀ e evs, mesh1.elementVertices e = some evs → evs.Nodup := by
  intro e evs h
  unfold mesh1 at h
  simp only at h
  split at h
  · simp only [Option.some.injEq] at h
    subst h
    decide
  · split at h
    · simp only [Option.some.injEq] at h
      subst h
      decide
    · exact absurd h (by simp)

/-- The accumulator produced by the single-record input `data1`. -/
def accOut1 : Accum :=
  { gvertices := [(0, 0, 1/10), (1, 0, 1/10), (0, 1, 1/10), (0, 1, 1)]
    tentcenters := [2]
    nrs := [0]
    layers := [0]
    faces := [[1, 2, 3], [2, 0, 3], [3, 0, 1], [0, 2, 1]]
    normals := [((9/10, 9/10, 0), 1), ((9/10, 0, 0), -1),
                ((0, -9/10, 1), 1), ((0, 0, 1), -1)] }

/-- Evaluation of the flattener on the single-record input. -/
lemma getElements2D_data1 : getElements2D mesh1 data1 times1 = .ok accOut1 := by
  norm_num [getElements2D, data1, times1, reshape4, processFrom, stepRecord,
    stepRecordPre, buildVerts, mesh1, accum0, getFacesAndNormals, kernelStep,
    colVec, exbind_ok, exbind_error, qsign, sub3, cross3, dot3, Except.map,
    accOut1]

/-- Evaluation of the flattener on the two-record input: the face triples
of the second element are appended unchanged (element-local). -/
lemma getElements2D_data2 :
    getElements2D mesh1 data2 times2 =
      .ok { gvertices := accOut1.gvertices ++ accOut1.gvertices
            tentcenters := [2, 2]
            nrs := [0, 0]
            layers := [0, 0]
            faces := accOut1.faces ++ accOut1.faces
            normals := accOut1.normals ++ accOut1.normals } := by
  norm_num [getElements2D, data1, times1, data2, times2, reshape4, processFrom,
    stepRecord, stepRecordPre, buildVerts, mesh1, accum0, getFacesAndNormals,
    kernelStep, colVec, exbind_ok, exbind_error, qsign, sub3, cross3, dot3,
    Except.map, accOut1]

/-- Evaluation of the flattener on the input whose second record's element
does not contain the central vertex id: the whole call fails with the
index error raised inside the face computation. -/
lemma getElements2D_dataMiss :
    getElements2D mesh1 dataMiss timesMiss = .error "IndexError: column" := by
  norm_num [getElements2D, data1, times1, dataMiss, timesMiss, reshape4,
    processFrom, stepRecord, stepRecordPre, buildVerts, mesh1, accum0,
    getFacesAndNormals, kernelStep, colVec, exbind_ok, exbind_error, qsign,
    sub3, cross3, dot3, Except.map]

/-- C2 counterexample: the claimed count of 5 output vertices per record is
wrong.  The end-to-end single-record scenario (one tent, one element, three
bottom times 1/10, top time 1, central vertex = the element's vertex at
local index 2) produces exactly 4 global vertices — the 3 bottom points
plus the single top duplicate — together with 4 faces, one tent-center
entry equal to 2 and singleton tent-number/layer lists; it does not
produce 5 vertices. -/
theorem C2_counterexample :
    (getElements2D mesh1 data1 times1).map
        (fun a => (a.gvertices.length, a.faces.length, a.tentcenters,
          a.nrs.length, a.layers.length)) = .ok (4, 4, [2], 1, 1) ∧
    (getElements2D mesh1 data1 times1).map (fun a => a.gvertices.length) ≠
      .ok 5 := by
  rw [getElements2D_data1]
  refine ⟨rfl, ?_⟩
  simp [Except.map, accOut1]

/-- C2 amended: for every input on which the flatten call succeeds (over a
mesh whose elements have pairwise-distinct vertex ids), each of the N
records contributes exactly 4 global vertices (3 bottom points plus 1 top
duplicate, for the triangles of the 2d mesh), 4 faces and 4 normals: the
output has 4·N vertices and 4·N faces, not 5·N vertices. -/
theorem C2_amended (mesh : Mesh) (dataFlat : List ℤ) (timesFlat : List ℚ)
    (hnd : ∀ e evs, mesh.elementVertices e = some evs → evs.Nodup)
    (out : Accum) (h : getElements2D mesh dataFlat timesFlat = .ok out) :
    ∃ recs, reshape4 dataFlat = .ok recs ∧
      out.gvertices.length = 4 * recs.length ∧
      out.faces.length = 4 * recs.length ∧
      out.normals.length = 4 * recs.length ∧
      out.tentcenters.length = recs.length ∧
      out.nrs.length = recs.length ∧
      out.layers.length = recs.length ∧
      dataFlat.length = 4 * recs.length := by
  unfold getElements2D at h
  cases hd : reshape4 dataFlat with
  | error e => rw [hd] at h; exact absurd h (by simp)
  | ok recs =>
    rw [hd] at h
    simp only at h
    cases ht : reshape4 timesFlat with
    | error e => rw [ht] at h; exact absurd h (by simp)
    | ok times =>
      rw [ht] at h
      simp only at h
      obtain ⟨g, f, n, t, r, l, _⟩ := proc_ok hnd h
      exact ⟨recs, rfl, by simpa [accum0] using g, by simpa [accum0] using f,
        by simpa [accum0] using n, by simpa [accum0] using t,
        by simpa [accum0] using r, by simpa [accum0] using l,
        reshape4_ok_len hd⟩

/-- Witness for C2 amended at the single-record input. -/
theorem C2_amended_witness :
    (getElements2D mesh1 data1 times1 = .ok accOut1) ∧
    (∃ recs, reshape4 data1 = .ok recs ∧
      accOut1.gvertices.length = 4 * recs.length ∧
      accOut1.faces.length = 4 * recs.length ∧
      accOut1.normals.length = 4 * recs.length ∧
      accOut1.tentcenters.length = recs.length ∧
      accOut1.nrs.length = recs.length ∧
      accOut1.layers.length = recs.length ∧
      data1.length = 4 * recs.length) :=
  ⟨getElements2D_data1,
   C2_amended mesh1 data1 times1 mesh1_nodup accOut1 getElements2D_data1⟩

/-- C3 counterexample: face index triples are appended element-local, not
offset by the running global vertex count.  On the two-record input the
output has 8 global vertices but the faces stored for the second element
(entries 4..7 of the face list) are identical to those of the first
element — e.g. its first face is [1,2,3], whose indices are not all ≥ 4,
although 4 vertices had already been emitted before the second element. -/
theorem C3_counterexample :
    (getElements2D mesh1 data2 times2).map
        (fun a => (a.faces, a.gvertices.length)) =
      .ok ([[1, 2, 3], [2, 0, 3], [3, 0, 1], [0, 2, 1],
            [1, 2, 3], [2, 0, 3], [3, 0, 1], [0, 2, 1]], 8) ∧
    ¬ (∀ ix ∈ ([1, 2, 3] : List ℕ), 4 ≤ ix) := by
  rw [getElements2D_data2]
  constructor
  · simp [Except.map, accOut1]
  · decide

/-- C3 amended: the face triples stored in the scene are element-local
indices: on any successful flatten call (over a duplicate-free mesh) every
stored face index is below 4; since each record also appends exactly 4
vertices, every stored face index is below the length of the global vertex
list whenever the face list is non-empty — but the indices are never
offset by the running vertex count. -/
theorem C3_amended (mesh : Mesh) (dataFlat : List ℤ) (timesFlat : List ℚ)
    (hnd : ∀ e evs, mesh.elementVertices e = some evs → evs.Nodup)
    (out : Accum) (h : getElements2D mesh dataFlat timesFlat = .ok out) :
    (∀ f ∈ out.faces, ∀ ix ∈ f, ix < 4) ∧
    (out.faces ≠ [] → ∀ f ∈ out.faces, ∀ ix ∈ f, ix < out.gvertices.length) := by
  unfold getElements2D at h
  cases hd : reshape4 dataFlat with
  | error e => rw [hd] at h; exact absurd h (by simp)
  | ok recs =>
    rw [hd] at h
    simp only at h
    cases ht : reshape4 timesFlat with
    | error e => rw [ht] at h; exact absurd h (by simp)
    | ok times =>
      rw [ht] at h
      simp only at h
      obtain ⟨g, flen, _, _, _, _, hb⟩ := proc_ok hnd h
      have hbound : ∀ f ∈ out.faces, ∀ ix ∈ f, ix < 4 := by
        intro f hf
        rcases hb f hf with hf0 | hlt
        · exact absurd hf0 (by simp [accum0])
        · exact hlt
      refine ⟨hbound, ?_⟩
      intro hne f hf ix hix
      have hN : recs.length ≠ 0 := by
        rintro h0
        have hf0 : out.faces.length = 0 := by
          rw [flen, h0]
          simp [accum0]
        exact hne (List.length_eq_zero.mp hf0)
      have : ix < 4 := hbound f hf ix hix
      have hg : out.gvertices.length = 4 * recs.length := by
        simpa [accum0] using g
      omega

/-- Witness for C3 amended at the single-record input. -/
theorem C3_amended_witness :
    (getElements2D mesh1 data1 times1 = .ok accOut1) ∧
    ((∀ f ∈ accOut1.faces, ∀ ix ∈ f, ix < 4) ∧
     (accOut1.faces ≠ [] →
       ∀ f ∈ accOut1.faces, ∀ ix ∈ f, ix < accOut1.gvertices.length)) :=
  ⟨getElements2D_data1,
   C3_amended mesh1 data1 times1 mesh1_nodup accOut1 getElements2D_data1⟩

/-- A full record step is the pre part followed by `GetFacesAndNormals` on
the very point list the pre part built, whose points (top duplicate
included) are then appended verbatim to the global vertex list. -/
lemma stepRecord_eq_map {mesh : Mesh} {dR : ℤ × ℤ × ℤ × ℤ}
    {tR : ℚ × ℚ × ℚ × ℚ} {center : Option ℕ} {acc acc2 : Accum}
    {verts : List Point3} {center' : Option ℕ}
    (hpre : stepRecordPre mesh dR tR center acc = .ok (acc2, verts, center')) :
    stepRecord mesh dR tR center acc =
      (getFacesAndNormals verts).map
        (fun fn => ({ acc2 with
          faces := acc2.faces ++ fn.1
          gvertices := acc2.gvertices ++ verts
          normals := acc2.normals ++ fn.2 }, center')) := by
  unfold stepRecord
  rw [hpre]
  simp only
  cases hg : getFacesAndNormals verts with
  | error e => simp [Except.map]
  | ok fn =>
    obtain ⟨fcs, nrmls⟩ := fn
    simp [Except.map]

/-- C1 counterexample: the 4 points handed to `GetFacesAndNormals` are not
the bottom-time points of the element's original vertices alone — for the
single-record input (element with 3 vertices, central vertex 12 at local
index 2, bottom times 1/10, top time 1) the list built by the record step,
which `GetElements2D` passes to `GetFacesAndNormals` and appends to the
global vertex array, is the 3 bottom points plus the top duplicate
(0, 1, 1); the top duplicate is among the points used for face/normal
computation, and the list differs from the list of bottom-time points. -/
theorem C1_counterexample :
    (stepRecordPre mesh1 (0, 0, 12, 0) (1/10, 1/10, 1/10, 1) none accum0).map
        (fun r => r.2.1) =
      .ok [(0, 0, 1/10), (1, 0, 1/10), (0, 1, 1/10), (0, 1, 1)] ∧
    (((0 : ℚ), (1 : ℚ), (1 : ℚ)) ∈
      [((0 : ℚ), (0 : ℚ), (1 : ℚ)/10), (1, 0, 1/10), (0, 1, 1/10), (0, 1, 1)]) ∧
    ([((0 : ℚ), (0 : ℚ), (1 : ℚ)/10), (1, 0, 1/10), (0, 1, 1/10), (0, 1, 1)] ≠
      [((0 : ℚ), (0 : ℚ), (1 : ℚ)/10), (1, 0, 1/10), (0, 1, 1/10)]) := by
  refine ⟨?_, by norm_num, by norm_num⟩
  norm_num [stepRecordPre, buildVerts, mesh1, accum0, Except.map]

/-- C1 amended: for a record whose element has the 3 vertices `[v0,v1,v2]`
with known coordinates, exactly one of which (at local position `p`) is
the central vertex, the point list built by the record step is the three
bottom-time points with the central vertex's top-time duplicate inserted
immediately after its bottom point (4 points in all); `GetElements2D`
passes exactly this list — top duplicate included — to
`GetFacesAndNormals`, and appends exactly this same list to the global
vertex array. -/
theorem C1_amended (mesh : Mesh) (nr layer vnr elnr : ℤ) (t0 t1 t2 ttop : ℚ)
    (v0 v1 v2 : ℤ) (x0 y0 x1 y1 x2 y2 : ℚ) (p : Fin 3)
    (hev : mesh.elementVertices elnr = some [v0, v1, v2])
    (hp0 : mesh.vertexPoint v0 = some (x0, y0))
    (hp1 : mesh.vertexPoint v1 = some (x1, y1))
    (hp2 : mesh.vertexPoint v2 = some (x2, y2))
    (hc : [v0, v1, v2].get p = vnr)
    (ho : ∀ q : Fin 3, q ≠ p → [v0, v1, v2].get q ≠ vnr)
    (center : Option ℕ) (acc : Accum) :
    ∃ acc2 verts,
      verts = ([((x0 : ℚ), (y0 : ℚ), t0), (x1, y1, t1),
          (x2, y2, t2)].take (p.1 + 1)) ++
        [(([(x0, y0), (x1, y1), (x2, y2)].get p).1,
          ([(x0, y0), (x1, y1), (x2, y2)].get p).2, ttop)] ++
        ([((x0 : ℚ), (y0 : ℚ), t0), (x1, y1, t1), (x2, y2, t2)].drop (p.1 + 1)) ∧
      stepRecordPre mesh (nr, layer, vnr, elnr) (t0, t1, t2, ttop) center acc =
        .ok (acc2, verts, some p.1) ∧
      stepRecord mesh (nr, layer, vnr, elnr) (t0, t1, t2, ttop) center acc =
        (getFacesAndNormals verts).map
          (fun fn => ({ acc2 with
            faces := acc2.faces ++ fn.1
            gvertices := acc2.gvertices ++ verts
            normals := acc2.normals ++ fn.2 }, some p.1)) := by
  fin_cases p
  · have h0 : v0 = vnr := hc
    have h1 : v1 ≠ vnr := ho 1 (by decide)
    have h2 : v2 ≠ vnr := ho 2 (by decide)
    subst h0
    have hpre : stepRecordPre mesh (nr, layer, v0, elnr) (t0, t1, t2, ttop)
        center acc = .ok ({ acc with
          nrs := acc.nrs ++ [nr]
          layers := acc.layers ++ [layer]
          tentcenters := acc.tentcenters ++ [0] },
        [(x0, y0, t0), (x0, y0, ttop), (x1, y1, t1), (x2, y2, t2)], some 0) := by
      simp [stepRecordPre, hev, buildVerts, hp0, hp1, hp2, h1, h2]
    exact ⟨_, _, by simp, hpre, stepRecord_eq_map hpre⟩
  · have h0 : v0 ≠ vnr := ho 0 (by decide)
    have h1 : v1 = vnr := hc
    have h2 : v2 ≠ vnr := ho 2 (by decide)
    subst h1
    have hpre : stepRecordPre mesh (nr, layer, v1, elnr) (t0, t1, t2, ttop)
        center acc = .ok ({ acc with
          nrs := acc.nrs ++ [nr]
          layers := acc.layers ++ [layer]
          tentcenters := acc.tentcenters ++ [1] },
        [(x0, y0, t0), (x1, y1, t1), (x1, y1, ttop), (x2, y2, t2)], some 1) := by
      simp [stepRecordPre, hev, buildVerts, hp0, hp1, hp2, h0, h2]
    exact ⟨_, _, by simp, hpre, stepRecord_eq_map hpre⟩
  · have h0 : v0 ≠ vnr := ho 0 (by decide)
    have h1 : v1 ≠ vnr := ho 1 (by decide)
    have h2 : v2 = vnr := hc
    subst h2
    have hpre : stepRecordPre mesh (nr, layer, v2, elnr) (t0, t1, t2, ttop)
        center acc = .ok ({ acc with
          nrs := acc.nrs ++ [nr]
          layers := acc.layers ++ [layer]
          tentcenters := acc.tentcenters ++ [2] },
        [(x0, y0, t0), (x1, y1, t1), (x2, y2, t2), (x2, y2, ttop)], some 2) := by
      simp [stepRecordPre, hev, buildVerts, hp0, hp1, hp2, h0, h1]
    exact ⟨_, _, by simp, hpre, stepRecord_eq_map hpre⟩

/-- Witness for C1 amended: the single-record element with central vertex
12 at local position 2. -/
theorem C1_amended_witness :
    (mesh1.elementVertices 0 = some [10, 11, 12]) ∧
    (mesh1.vertexPoint 10 = some (0, 0)) ∧
    (mesh1.vertexPoint 11 = some (1, 0)) ∧
    (mesh1.vertexPoint 12 = some (0, 1)) ∧
    ([(10 : ℤ), 11, 12].get (2 : Fin 3) = 12) ∧
    (∀ q : Fin 3, q ≠ (2 : Fin 3) → [(10 : ℤ), 11, 12].get q ≠ 12) ∧
    (∃ acc2 verts,
      verts = ([((0 : ℚ), (0 : ℚ), (1 : ℚ)/10), (1, 0, 1/10),
          (0, 1, 1/10)].take ((2 : Fin 3).1 + 1)) ++
        [(([((0 : ℚ), (0 : ℚ)), (1, 0), (0, 1)].get (2 : Fin 3)).1,
          ([((0 : ℚ), (0 : ℚ)), (1, 0), (0, 1)].get (2 : Fin 3)).2, 1)] ++
        ([((0 : ℚ), (0 : ℚ), (1 : ℚ)/10), (1, 0, 1/10),
          (0, 1, 1/10)].drop ((2 : Fin 3).1 + 1)) ∧
      stepRecordPre mesh1 (0, 0, 12, 0) (1/10, 1/10, 1/10, 1) none accum0 =
        .ok (acc2, verts, some (2 : Fin 3).1) ∧
      stepRecord mesh1 (0, 0, 12, 0) (1/10, 1/10, 1/10, 1) none accum0 =
        (getFacesAndNormals verts).map
          (fun fn => ({ acc2 with
            faces := acc2.faces ++ fn.1
            gvertices := acc2.gvertices ++ verts
            normals := acc2.normals ++ fn.2 }, some (2 : Fin 3).1))) :=
  ⟨rfl, rfl, rfl, rfl, rfl, by decide,
   C1_amended mesh1 0 0 12 0 (1/10) (1/10) (1/10) 1 10 11 12 0 0 1 0 0 1
     (2 : Fin 3) rfl rfl rfl rfl rfl (by decide) none accum0⟩

/-- If the first kernel iteration fails, the whole kernel call fails. -/
lemma gFN_err_of_step0 {el : List Point3} {e : String}
    (h : kernelStep el 0 = .error e) : getFacesAndNormals el = .error e := by
  unfold getFacesAndNormals
  rw [h]
  simp [exbind_error]

/-- The vertex loop succeeds when all vertex ids resolve and every visited
bottom-time index is in range. -/
lemma bv_ok_exists {mesh : Mesh} {vnr : ℤ} {tbots : List ℚ} {ttop : ℚ} :
    ∀ {evs : List ℤ} (j : ℕ) (acc : List Point3) (center : Option ℕ),
    (∀ v ∈ evs, mesh.vertexPoint v ≠ none) → j + evs.length ≤ tbots.length →
    ∃ verts center',
      buildVerts mesh vnr tbots ttop evs j acc center = .ok (verts, center') := by
  intro evs
  induction evs with
  | nil => intro j acc center _ _; exact ⟨acc, center, rfl⟩
  | cons v vs ih =>
    intro j acc center hkn hb
    cases hv : mesh.vertexPoint v with
    | none => exact absurd hv (hkn v (by simp))
    | some xy =>
      obtain ⟨x, y⟩ := xy
      cases ht : tbots.get? j with
      | none =>
        have := List.get?_eq_none.mp ht
        simp only [List.length_cons] at hb
        omega
      | some tb =>
        have hkn' : ∀ w ∈ vs, mesh.vertexPoint w ≠ none :=
          fun w hw => hkn w (by simp [hw])
        have hb' : (j + 1) + vs.length ≤ tbots.length := by
          simp only [List.length_cons] at hb
          omega
        by_cases hveq : v = vnr
        · obtain ⟨verts, center', hbv⟩ :=
            ih (j + 1) (acc ++ [(x, y, tb), (x, y, ttop)]) (some j) hkn' hb'
          refine ⟨verts, center', ?_⟩
          rw [buildVerts, hv, ht]
          simp only
          rw [if_pos hveq]
          exact hbv
        · obtain ⟨verts, center', hbv⟩ :=
            ih (j + 1) (acc ++ [(x, y, tb)]) center hkn' hb'
          refine ⟨verts, center', ?_⟩
          rw [buildVerts, hv, ht]
          simp only
          rw [if_neg hveq]
          exact hbv

/-- C10 counterexample: when a record after the first names a central
vertex that its element does not contain, the call does not silently
append the stale previous tent-center and carry on — the 3-point element
makes `GetFacesAndNormals` raise an index error and the whole call fails,
returning no accumulator at all. -/
theorem C10_counterexample :
    getElements2D mesh1 dataMiss timesMiss = .error "IndexError: column" ∧
    (getElements2D mesh1 dataMiss timesMiss).isOk = false := by
  refine ⟨getElements2D_dataMiss, ?_⟩
  rw [getElements2D_dataMiss]
  rfl

/-- C10 amended: the `center` variable is never reset between records.
For a record whose element (with at most 3 known vertices) does not
contain the central vertex id: (a) when `center` already holds a value
`c` from an earlier record, the pre part of the step succeeds, appends the
stale `c` to the tent-center list and leaves `center` unchanged — but the
full step nevertheless fails, because the element contributed fewer than
4 points and the face computation raises an index error; (b) when the
record is the first of its kind (`center` never assigned), the step fails
at the append itself with the unbound-name error. -/
theorem C10_amended (mesh : Mesh) (nr layer vnr elnr : ℤ) (t0 t1 t2 ttop : ℚ)
    (evs : List ℤ) (c : ℕ) (acc : Accum)
    (hev : mesh.elementVertices elnr = some evs)
    (hkn : ∀ v ∈ evs, mesh.vertexPoint v ≠ none)
    (hlen : evs.length ≤ 3)
    (hmiss : vnr ∉ evs) :
    (∃ verts, verts.length = evs.length ∧ verts.length < 4 ∧
      stepRecordPre mesh (nr, layer, vnr, elnr) (t0, t1, t2, ttop)
          (some c) acc =
        .ok ({ acc with
          nrs := acc.nrs ++ [nr]
          layers := acc.layers ++ [layer]
          tentcenters := acc.tentcenters ++ [c] }, verts, some c)) ∧
    (∃ e, stepRecord mesh (nr, layer, vnr, elnr) (t0, t1, t2, ttop)
        (some c) acc = .error e) ∧
    stepRecordPre mesh (nr, layer, vnr, elnr) (t0, t1, t2, ttop) none acc =
      .error "NameError: center" := by
  have hbound : (0 : ℕ) + evs.length ≤ [t0, t1, t2].length := by
    simp only [List.length_cons, List.length_nil]
    omega
  obtain ⟨verts, center', hbv⟩ := bv_ok_exists 0 [] (some c) hkn hbound
  have hc' : center' = some c := bv_ok_center_of_not_mem hmiss hbv
  subst hc'
  have hvlen : verts.length = evs.length := by
    have := bv_ok_length hbv
    simp only [List.length_nil, countMatch_eq_zero hmiss] at this
    omega
  have hpre : stepRecordPre mesh (nr, layer, vnr, elnr) (t0, t1, t2, ttop)
      (some c) acc =
      .ok ({ acc with
        nrs := acc.nrs ++ [nr]
        layers := acc.layers ++ [layer]
        tentcenters := acc.tentcenters ++ [c] }, verts, some c) := by
    unfold stepRecordPre
    simp only
    rw [hev]
    simp only
    rw [hbv]
  refine ⟨⟨verts, hvlen, by omega, hpre⟩, ?_, ?_⟩
  · obtain ⟨e, he⟩ := @kernelStep0_err_of_short verts (by omega)
    refine ⟨e, ?_⟩
    rw [stepRecord_eq_map hpre, gFN_err_of_step0 he]
    simp [Except.map]
  · obtain ⟨verts2, center2, hbv2⟩ := bv_ok_exists 0 [] none hkn hbound
    have hc2 : center2 = none := bv_ok_center_of_not_mem hmiss hbv2
    subst hc2
    unfold stepRecordPre
    simp only
    rw [hev]
    simp only
    rw [hbv2]

/-- Witness for C10 amended: element 1 of `mesh1` (vertices 20, 21, 22)
with central vertex id 12 and a stale center value 2. -/
theorem C10_amended_witness :
    (mesh1.elementVertices 1 = some [20, 21, 22]) ∧
    (∀ v ∈ [(20 : ℤ), 21, 22], mesh1.vertexPoint v ≠ none) ∧
    ([(20 : ℤ), 21, 22].length ≤ 3) ∧
    ((12 : ℤ) ∉ [(20 : ℤ), 21, 22]) ∧
    ((∃ verts, verts.length = [(20 : ℤ), 21, 22].length ∧ verts.length < 4 ∧
      stepRecordPre mesh1 (1, 0, 12, 1) (1/10, 1/10, 1/10, 1)
          (some 2) accum0 =
        .ok ({ accum0 with
          nrs := accum0.nrs ++ [1]
          layers := accum0.layers ++ [0]
          tentcenters := accum0.tentcenters ++ [2] }, verts, some 2)) ∧
    (∃ e, stepRecord mesh1 (1, 0, 12, 1) (1/10, 1/10, 1/10, 1)
        (some 2) accum0 = .error e) ∧
    stepRecordPre mesh1 (1, 0, 12, 1) (1/10, 1/10, 1/10, 1) none accum0 =
      .error "NameError: center") :=
  ⟨rfl, by decide, by decide, by decide,
   C10_amended mesh1 1 0 12 1 (1/10) (1/10) (1/10) 1 [20, 21, 22] 2 accum0
     rfl (by decide) (by decide) (by decide)⟩

/-- A record is malformed in the sense of the failure-semantics contract:
its element id is unknown, or one of the element's vertex ids is unknown,
or the element does not contain the record's central vertex id. -/
def BadRecord (mesh : Mesh) (r : ℤ × ℤ × ℤ × ℤ) : Prop :=
  mesh.elementVertices r.2.2.2 = none ∨
  (∃ evs, mesh.elementVertices r.2.2.2 = some evs ∧
    ((∃ v ∈ evs, mesh.vertexPoint v = none) ∨ r.2.2.1 ∉ evs))

/-- An input stream is malformed when the flat times do not form whole
rows of 3 bottom times plus 1 top time, or there are fewer time rows than
data records, or some record is malformed. -/
def MalformedInput (mesh : Mesh) (dataFlat : List ℤ) (timesFlat : List ℚ) :
    Prop :=
  ¬ (4 ∣ timesFlat.length) ∨
  timesFlat.length < dataFlat.length ∨
  (∃ recs, reshape4 dataFlat = .ok recs ∧ ∃ r ∈ recs, BadRecord mesh r)

/-- A failed pre step fails the whole record step. -/
lemma stepRecord_err_of_pre {mesh : Mesh} {dR : ℤ × ℤ × ℤ × ℤ}
    {tR : ℚ × ℚ × ℚ × ℚ} {center : Option ℕ} {acc : Accum} {e : String}
    (h : stepRecordPre mesh dR tR center acc = .error e) :
    stepRecord mesh dR tR center acc = .error e := by
  unfold stepRecord
  rw [h]

/-- A malformed record fails its record step, from any incoming state. -/
lemma step_err_of_bad {mesh : Mesh} {r : ℤ × ℤ × ℤ × ℤ}
    (hbad : BadRecord mesh r) (tR : ℚ × ℚ × ℚ × ℚ) (center : Option ℕ)
    (acc : Accum) :
    ∃ e, stepRecord mesh r tR center acc = .error e := by
  obtain ⟨nr, layer, vnr, elnr⟩ := r
  obtain ⟨t0, t1, t2, ttop⟩ := tR
  rcases hbad with hnone | ⟨evs, hev, hbad⟩
  · refine ⟨"KeyError: unknown element", stepRecord_err_of_pre ?_⟩
    unfold stepRecordPre
    simp only at hnone ⊢
    rw [hnone]
  · simp only at hev
    rcases hbad with hunk | hmiss
    · obtain ⟨e, hbv⟩ := bv_err_of_unknown hunk 0 [] center
      refine ⟨e, stepRecord_err_of_pre ?_⟩
      unfold stepRecordPre
      simp only
      rw [hev]
      simp only
      rw [hbv]
    · simp only at hmiss
      cases hbv : buildVerts mesh vnr [t0, t1, t2] ttop evs 0 [] center with
      | error e =>
        refine ⟨e, stepRecord_err_of_pre ?_⟩
        unfold stepRecordPre
        simp only
        rw [hev]
        simp only
        rw [hbv]
      | ok pr =>
        obtain ⟨verts, center'⟩ := pr
        have hc : center' = center := bv_ok_center_of_not_mem hmiss hbv
        rw [hc] at hbv
        have hvlen : verts.length = evs.length := by
          have := bv_ok_length hbv
          simp only [List.length_nil, countMatch_eq_zero hmiss] at this
          omega
        have hvlt : verts.length < 4 := by
          rcases eq_or_ne evs [] with rfl | hne
          · simp only [List.length_nil] at hvlen
            omega
          · have := bv_ok_bound hne hbv
            simp only [List.length_cons, List.length_nil] at this
            omega
        cases center with
        | none =>
          refine ⟨"NameError: center", stepRecord_err_of_pre ?_⟩
          unfold stepRecordPre
          simp only
          rw [hev]
          simp only
          rw [hbv]
        | some c =>
          have hpre : stepRecordPre mesh (nr, layer, vnr, elnr)
              (t0, t1, t2, ttop) (some c) acc =
              .ok ({ acc with
                nrs := acc.nrs ++ [nr]
                layers := acc.layers ++ [layer]
                tentcenters := acc.tentcenters ++ [c] }, verts, some c) := by
            unfold stepRecordPre
            simp only
            rw [hev]
            simp only
            rw [hbv]
          obtain ⟨e, he⟩ := @kernelStep0_err_of_short verts hvlt
          refine ⟨e, ?_⟩
          rw [stepRecord_eq_map hpre, gFN_err_of_step0 he]
          simp [Except.map]

/-- The record loop fails as soon as any of its records is malformed. -/
lemma proc_err_of_bad {mesh : Mesh} {times : List (ℚ × ℚ × ℚ × ℚ)} :
    ∀ {recs : List (ℤ × ℤ × ℤ × ℤ)}, (∃ r ∈ recs, BadRecord mesh r) →
    ∀ (i : ℕ) (center : Option ℕ) (acc : Accum),
    ∃ e, processFrom mesh times recs i center acc = .error e := by
  intro recs
  induction recs with
  | nil => rintro ⟨r, hr, _⟩; exact absurd hr (by simp)
  | cons dR rest ih =>
    rintro ⟨r, hr, hbad⟩ i center acc
    cases ht : times.get? i with
    | none =>
      refine ⟨"IndexError: times row", ?_⟩
      rw [processFrom, ht]
    | some tR =>
      rcases List.mem_cons.mp hr with hr0 | hrest
      · subst hr0
        obtain ⟨e, he⟩ := step_err_of_bad hbad tR center acc
        refine ⟨e, ?_⟩
        rw [processFrom, ht]
        simp only
        rw [he]
      · cases hs : stepRecord mesh dR tR center acc with
        | error e =>
          refine ⟨e, ?_⟩
          rw [processFrom, ht]
          simp only
          rw [hs]
        | ok pr =>
          obtain ⟨acc1, c1⟩ := pr
          obtain ⟨e, he⟩ := ih ⟨r, hrest, hbad⟩ (i + 1) c1 acc1
          refine ⟨e, ?_⟩
          rw [processFrom, ht]
          simp only
          rw [hs]
          simp only
          exact he

/-- The record loop fails when there are fewer time rows than records. -/
lemma proc_err_short {mesh : Mesh} {times : List (ℚ × ℚ × ℚ × ℚ)} :
    ∀ {recs : List (ℤ × ℤ × ℤ × ℤ)} {i : ℕ}, i ≤ times.length →
    times.length < i + recs.length →
    ∀ (center : Option ℕ) (acc : Accum),
    ∃ e, processFrom mesh times recs i center acc = .error e := by
  intro recs
  induction recs with
  | nil =>
    intro i hle hlt _ _
    simp only [List.length_nil] at hlt
    omega
  | cons dR rest ih =>
    intro i hle hlt center acc
    cases ht : times.get? i with
    | none =>
      refine ⟨"IndexError: times row", ?_⟩
      rw [processFrom, ht]
    | some tR =>
      have hi : i < times.length := List.get?_eq_some.mp ht |>.1
      cases hs : stepRecord mesh dR tR center acc with
      | error e =>
        refine ⟨e, ?_⟩
        rw [processFrom, ht]
        simp only
        rw [hs]
      | ok pr =>
        obtain ⟨acc1, c1⟩ := pr
        have hlt' : times.length < (i + 1) + rest.length := by
          simp only [List.length_cons] at hlt
          omega
        obtain ⟨e, he⟩ := ih (by omega) hlt' c1 acc1
        refine ⟨e, ?_⟩
        rw [processFrom, ht]
        simp only
        rw [hs]
        simp only
        exact he

/-- C9: any malformed input — flat times that do not form whole rows of 4,
fewer time rows than records, an unknown element or vertex id, or an
element that does not contain its record's central vertex id — makes the
whole flatten call fail as a unit: `GetElements2D` surfaces a labeled
error to the caller and, the result being an `error` and not an `ok`
accumulator, no partial or best-effort scene data is returned. -/
theorem C9_malformed_input_fatal (mesh : Mesh) (dataFlat : List ℤ)
    (timesFlat : List ℚ) (h : MalformedInput mesh dataFlat timesFlat) :
    ∃ e, getElements2D mesh dataFlat timesFlat = .error e := by
  unfold getElements2D
  cases hd : reshape4 dataFlat with
  | error e => exact ⟨e, rfl⟩
  | ok recs =>
    simp only
    cases ht : reshape4 timesFlat with
    | error e => exact ⟨e, rfl⟩
    | ok times =>
      simp only
      rcases h with hdvd | hshort | ⟨recs', hrecs', r, hr, hbad⟩
      · exact absurd ⟨times.length, reshape4_ok_len ht⟩ hdvd
      · have h1 := reshape4_ok_len hd
        have h2 := reshape4_ok_len ht
        exact proc_err_short (by omega) (by omega) none accum0
      · rw [hd] at hrecs'
        simp only [Except.ok.injEq] at hrecs'
        subst hrecs'
        exact proc_err_of_bad ⟨r, hr, hbad⟩ 0 none accum0

/-- Witness for C9: a single-record data stream whose times list has only
one entry instead of a full row of 4 (wrong-length bottom times). -/
theorem C9_malformed_input_fatal_witness :
    MalformedInput mesh1 [0, 0, 12, 0] [1/10] ∧
    ∃ e, getElements2D mesh1 [0, 0, 12, 0] [1/10] = .error e :=
  ⟨Or.inl (by decide),
   C9_malformed_input_fatal mesh1 [0, 0, 12, 0] [1/10] (Or.inl (by decide))⟩

/-- Dropping the clock data from an instrumented record step gives exactly
the plain record step: the `time()` values flow only into the timing
lists. -/
lemma stepT_proj (clock : ℕ → ℚ) (mesh : Mesh) (dR : ℤ × ℤ × ℤ × ℤ)
    (tR : ℚ × ℚ × ℚ × ℚ) (center : Option ℕ) (acc : Accum) (cnt : ℕ)
    (tm : Timings) :
    (stepRecordT clock mesh dR tR center acc cnt tm).map
        (fun r => (r.1, r.2.1)) =
      stepRecord mesh dR tR center acc := by
  unfold stepRecordT stepRecord
  cases hpre : stepRecordPre mesh dR tR center acc with
  | error e => simp [Except.map]
  | ok pr =>
    obtain ⟨acc2, verts, c'⟩ := pr
    simp only
    cases hg : getFacesAndNormals verts with
    | error e => simp [Except.map]
    | ok fn =>
      obtain ⟨fcs, nrmls⟩ := fn
      simp [Except.map]

/-- Dropping the clock data from the instrumented record loop gives the
plain record loop. -/
lemma procT_proj (clock : ℕ → ℚ) (mesh : Mesh)
    (times : List (ℚ × ℚ × ℚ × ℚ)) :
    ∀ (recs : List (ℤ × ℤ × ℤ × ℤ)) (i : ℕ) (center : Option ℕ) (acc : Accum)
      (cnt : ℕ) (tm : Timings),
    (processFromT clock mesh times recs i center acc cnt tm).map (fun r => r.1)
      = processFrom mesh times recs i center acc := by
  intro recs
  induction recs with
  | nil => intro i center acc cnt tm; rfl
  | cons dR rest ih =>
    intro i center acc cnt tm
    rw [processFromT, processFrom]
    cases ht : times.get? i with
    | none => simp [Except.map]
    | some tR =>
      simp only
      have hs := stepT_proj clock mesh dR tR center acc cnt tm
      cases hsT : stepRecordT clock mesh dR tR center acc cnt tm with
      | error e =>
        rw [hsT] at hs
        simp only [Except.map] at hs
        rw [← hs]
        simp [Except.map]
      | ok pr =>
        obtain ⟨acc1, c1, cnt1, tm1⟩ := pr
        rw [hsT] at hs
        simp only [Except.map] at hs
        rw [← hs]
        simp only
        exact ih (i + 1) c1 acc1 cnt1 tm1

/-- Dropping the clock data from the instrumented extraction gives the
plain extraction. -/
lemma getET_proj (clock : ℕ → ℚ) (mesh : Mesh) (dataFlat : List ℤ)
    (timesFlat : List ℚ) :
    (getElements2DT clock mesh dataFlat timesFlat).map (fun r => r.1) =
      getElements2D mesh dataFlat timesFlat := by
  unfold getElements2DT getElements2D
  cases hd : reshape4 dataFlat with
  | error e => simp [Except.map]
  | ok recs =>
    simp only
    cases ht : reshape4 timesFlat with
    | error e => simp [Except.map]
    | ok times => exact procT_proj clock mesh times recs 0 none accum0 0 timings0

/-- The instrumented `GetData` agrees with the plain one. -/
lemma getDataQT_eq (clock : ℕ → ℚ) (mesh : Mesh) (dataFlat : List ℤ)
    (timesFlat : List ℚ) (ntents nlayers : ℤ) :
    getDataQT clock mesh dataFlat timesFlat ntents nlayers =
      getDataQ mesh dataFlat timesFlat ntents nlayers := by
  unfold getDataQT getDataQ
  have hp := getET_proj clock mesh dataFlat timesFlat
  cases hT : getElements2DT clock mesh dataFlat timesFlat with
  | error e =>
    rw [hT] at hp
    simp only [Except.map] at hp
    rw [← hp]
  | ok r =>
    obtain ⟨acc, cnt, tm⟩ := r
    rw [hT] at hp
    simp only [Except.map] at hp
    rw [← hp]

/-- C8: the flatten pipeline is deterministic and leaks no wall-clock
data.  The six `time()` calls per record are modelled by an explicit clock
sequence threaded through the instrumented pipeline; for any two clocks
the extracted accumulator and the assembled scene record are identical,
and both equal the results of the clock-free pipeline (the timing
differences flow only into the `setup`/`tent`/`face` lists that are
printed and discarded).  Two runs on identical record sequences and mesh
state are therefore bit-identical, and no field of the output depends on
wall-clock time. -/
theorem C8_deterministic_no_timing_leak (clock1 clock2 : ℕ → ℚ) (mesh : Mesh)
    (dataFlat : List ℤ) (timesFlat : List ℚ) (ntents nlayers : ℤ) :
    (getElements2DT clock1 mesh dataFlat timesFlat).map (fun r => r.1) =
      (getElements2DT clock2 mesh dataFlat timesFlat).map (fun r => r.1) ∧
    getDataQT clock1 mesh dataFlat timesFlat ntents nlayers =
      getDataQT clock2 mesh dataFlat timesFlat ntents nlayers ∧
    getDataQT clock1 mesh dataFlat timesFlat ntents nlayers =
      getDataQ mesh dataFlat timesFlat ntents nlayers := by
  refine ⟨?_, ?_, getDataQT_eq clock1 mesh dataFlat timesFlat ntents nlayers⟩
  · rw [getET_proj clock1, getET_proj clock2]
  · rw [getDataQT_eq clock1, getDataQT_eq clock2]

/-! ## Lemmas about the bounding box fold -/

/-- The running maximum dominates its initial value. -/
lemma foldl_max_init (l : List ℚ) : ∀ i : ℚ, i ≤ l.foldl max i := by
  induction l with
  | nil => intro i; simp
  | cons a l ih => intro i; exact le_trans (le_max_left i a) (ih (max i a))

/-- The running maximum dominates every list entry. -/
lemma foldl_max_bound (l : List ℚ) : ∀ (i : ℚ), ∀ x ∈ l, x ≤ l.foldl max i := by
  induction l with
  | nil => intro i x hx; exact absurd hx (by simp)
  | cons a l ih =>
    intro i x hx
    rcases List.mem_cons.mp hx with rfl | hx
    · exact le_trans (le_max_right i x) (foldl_max_init l (max i x))
    · exact ih (max i a) x hx

/-- The running maximum is the initial value or an entry of the list. -/
lemma foldl_max_attain (l : List ℚ) :
    ∀ i : ℚ, l.foldl max i = i ∨ l.foldl max i ∈ l := by
  induction l with
  | nil => intro i; exact Or.inl rfl
  | cons a l ih =>
    intro i
    rcases ih (max i a) with h | h
    · rcases max_choice i a with hi | ha
      · exact Or.inl (by rw [List.foldl_cons, h, hi])
      · exact Or.inr (by rw [List.foldl_cons, h, ha]; simp)
    · exact Or.inr (by simp [h])

/-- The running minimum is below its initial value. -/
lemma foldl_min_init (l : List ℚ) : ∀ i : ℚ, l.foldl min i ≤ i := by
  induction l with
  | nil => intro i; simp
  | cons a l ih => intro i; exact le_trans (ih (min i a)) (min_le_left i a)

/-- The running minimum is below every list entry. -/
lemma foldl_min_bound (l : List ℚ) : ∀ (i : ℚ), ∀ x ∈ l, l.foldl min i ≤ x := by
  induction l with
  | nil => intro i x hx; exact absurd hx (by simp)
  | cons a l ih =>
    intro i x hx
    rcases List.mem_cons.mp hx with rfl | hx
    · exact le_trans (foldl_min_init l (min i x)) (min_le_right i x)
    · exact ih (min i a) x hx

/-- The running minimum is the initial value or an entry of the list. -/
lemma foldl_min_attain (l : List ℚ) :
    ∀ i : ℚ, l.foldl min i = i ∨ l.foldl min i ∈ l := by
  induction l with
  | nil => intro i; exact Or.inl rfl
  | cons a l ih =>
    intro i
    rcases ih (min i a) with h | h
    · rcases min_choice i a with hi | ha
      · exact Or.inl (by rw [List.foldl_cons, h, hi])
      · exact Or.inr (by rw [List.foldl_cons, h, ha]; simp)
    · exact Or.inr (by simp [h])

/-- The componentwise-max fold projects to per-coordinate max folds. -/
lemma foldl_cmax_proj (l : List Point3) : ∀ a : Point3,
    (l.foldl cmax a).1 = (l.map (fun p : Point3 => p.1)).foldl max a.1 ∧
    (l.foldl cmax a).2.1 = (l.map (fun p : Point3 => p.2.1)).foldl max a.2.1 ∧
    (l.foldl cmax a).2.2 = (l.map (fun p : Point3 => p.2.2)).foldl max a.2.2 := by
  induction l with
  | nil => intro a; exact ⟨rfl, rfl, rfl⟩
  | cons b l ih =>
    intro a
    simp only [List.foldl_cons, List.map_cons]
    exact ih (cmax a b)

/-- The componentwise-min fold projects to per-coordinate min folds. -/
lemma foldl_cmin_proj (l : List Point3) : ∀ a : Point3,
    (l.foldl cmin a).1 = (l.map (fun p : Point3 => p.1)).foldl min a.1 ∧
    (l.foldl cmin a).2.1 = (l.map (fun p : Point3 => p.2.1)).foldl min a.2.1 ∧
    (l.foldl cmin a).2.2 = (l.map (fun p : Point3 => p.2.2)).foldl min a.2.2 := by
  induction l with
  | nil => intro a; exact ⟨rfl, rfl, rfl⟩
  | cons b l ih =>
    intro a
    simp only [List.foldl_cons, List.map_cons]
    exact ih (cmin a b)

/-- C7: for every non-empty emitted vertex list, `slab_center` is the
componentwise midpoint `(vmin+vmax)/2` of the axis-aligned bounding box
(`vmin`/`vmax` bound every vertex componentwise and each of their
coordinates is attained by some vertex), and `slab_radius` is half the
Euclidean distance between the box's min and max corners; the synthetic
vertex set (0,0,0), (2,0,0), (0,2,0), (0,0,2) yields center (1,1,1) and
radius sqrt(12)/2. -/
theorem C7_bounding_sphere (v : Point3) (vs : List Point3) :
    (∃ lo hi,
      vminL (v :: vs) = some lo ∧ vmaxL (v :: vs) = some hi ∧
      (∀ w ∈ v :: vs, lo.1 ≤ w.1 ∧ lo.2.1 ≤ w.2.1 ∧ lo.2.2 ≤ w.2.2 ∧
        w.1 ≤ hi.1 ∧ w.2.1 ≤ hi.2.1 ∧ w.2.2 ≤ hi.2.2) ∧
      lo.1 ∈ (v :: vs).map (fun p : Point3 => p.1) ∧
      lo.2.1 ∈ (v :: vs).map (fun p : Point3 => p.2.1) ∧
      lo.2.2 ∈ (v :: vs).map (fun p : Point3 => p.2.2) ∧
      hi.1 ∈ (v :: vs).map (fun p : Point3 => p.1) ∧
      hi.2.1 ∈ (v :: vs).map (fun p : Point3 => p.2.1) ∧
      hi.2.2 ∈ (v :: vs).map (fun p : Point3 => p.2.2) ∧
      slabCenter (v :: vs) = some (midp3 lo hi) ∧
      slabRadius (v :: vs) =
        Real.sqrt (((hi.1 - lo.1 : ℚ) : ℝ) ^ 2 + ((hi.2.1 - lo.2.1 : ℚ) : ℝ) ^ 2
          + ((hi.2.2 - lo.2.2 : ℚ) : ℝ) ^ 2) / 2) ∧
    slabCenter [((0 : ℚ), (0 : ℚ), (0 : ℚ)), (2, 0, 0), (0, 2, 0), (0, 0, 2)] =
      some (1, 1, 1) ∧
    slabRadius [((0 : ℚ), (0 : ℚ), (0 : ℚ)), (2, 0, 0), (0, 2, 0), (0, 0, 2)] =
      Real.sqrt 12 / 2 := by
  obtain ⟨pn1, pn2, pn3⟩ := foldl_cmin_proj vs v
  obtain ⟨px1, px2, px3⟩ := foldl_cmax_proj vs v
  refine ⟨⟨vs.foldl cmin v, vs.foldl cmax v, rfl, rfl, ?_, ?_, ?_, ?_, ?_, ?_,
    ?_, rfl, rfl⟩, ?_, ?_⟩
  · intro w hw
    rcases List.mem_cons.mp hw with rfl | hw
    · exact ⟨pn1 ▸ foldl_min_init _ _, pn2 ▸ foldl_min_init _ _,
        pn3 ▸ foldl_min_init _ _, px1 ▸ foldl_max_init _ _,
        px2 ▸ foldl_max_init _ _, px3 ▸ foldl_max_init _ _⟩
    · exact ⟨pn1 ▸ foldl_min_bound _ _ _ (List.mem_map_of_mem _ hw),
        pn2 ▸ foldl_min_bound _ _ _ (List.mem_map_of_mem _ hw),
        pn3 ▸ foldl_min_bound _ _ _ (List.mem_map_of_mem _ hw),
        px1 ▸ foldl_max_bound _ _ _ (List.mem_map_of_mem _ hw),
        px2 ▸ foldl_max_bound _ _ _ (List.mem_map_of_mem _ hw),
        px3 ▸ foldl_max_bound _ _ _ (List.mem_map_of_mem _ hw)⟩
  · rw [List.map_cons, pn1]
    rcases foldl_min_attain (vs.map (fun p : Point3 => p.1)) v.1 with h | h
    · rw [h]; exact List.mem_cons_self _ _
    · exact List.mem_cons_of_mem _ h
  · rw [List.map_cons, pn2]
    rcases foldl_min_attain (vs.map (fun p : Point3 => p.2.1)) v.2.1 with h | h
    · rw [h]; exact List.mem_cons_self _ _
    · exact List.mem_cons_of_mem _ h
  · rw [List.map_cons, pn3]
    rcases foldl_min_attain (vs.map (fun p : Point3 => p.2.2)) v.2.2 with h | h
    · rw [h]; exact List.mem_cons_self _ _
    · exact List.mem_cons_of_mem _ h
  · rw [List.map_cons, px1]
    rcases foldl_max_attain (vs.map (fun p : Point3 => p.1)) v.1 with h | h
    · rw [h]; exact List.mem_cons_self _ _
    · exact List.mem_cons_of_mem _ h
  · rw [List.map_cons, px2]
    rcases foldl_max_attain (vs.map (fun p : Point3 => p.2.1)) v.2.1 with h | h
    · rw [h]; exact List.mem_cons_self _ _
    · exact List.mem_cons_of_mem _ h
  · rw [List.map_cons, px3]
    rcases foldl_max_attain (vs.map (fun p : Point3 => p.2.2)) v.2.2 with h | h
    · rw [h]; exact List.mem_cons_self _ _
    · exact List.mem_cons_of_mem _ h
  · norm_num [slabCenter, vminL, vmaxL, cmin, cmax, midp3, min_def, max_def]
  · norm_num [slabRadius, vminL, vmaxL, cmin, cmax, sub3, min_def, max_def]
